import Mathlib

/-!
# plaid-go, `plaid/info.go`: the Info endpoint operations

A shallow embedding of the seven Info operations of the Plaid client
(`InfoAddUser`, `infoStepSendMethod`, `InfoStep`, `InfoGet`, `InfoUpdate`,
`InfoUpdateStep`, `InfoDelete`) together with the part of Go's
`encoding/json` encoder that they exercise.

Modelling conventions.

* A Go `string` is a sequence of bytes, `GoString`; it need not be valid
  UTF-8.  The text of a JSON document is Unicode, a Lean `String`.  The Go
  encoder reads a string rune by rune and writes U+FFFD for every byte that
  does not start a valid UTF-8 sequence; `GoString.runes` is that reading.
* `json.Marshal` is modelled at the level of the JSON document it spells:
  its result is a `JsonValue` whose object members are listed in emission
  order, not the byte string.  `bytes.NewReader` wraps that document.
* The network is explicit state: a codec function takes the state of the
  world `σ` and returns its result together with the new state.
-/

set_option autoImplicit false

namespace plaid

/-! ## Go strings -/

/-- A Go `string`: an immutable sequence of bytes. -/
abbrev GoString : Type :=
  List UInt8

namespace utf8

/-- Go's `utf8.RuneError`, the replacement character U+FFFD. -/
def RuneError : Char :=
  Char.ofNat 0xFFFD

/-- The least second byte accepted after the leading byte `x0` of a three- or
four-byte sequence (Go's accept ranges: no overlong encodings). -/
def acceptLo (x0 : Nat) : Nat :=
  if x0 = 0xE0 then 0xA0 else if x0 = 0xF0 then 0x90 else 0x80

/-- The greatest second byte accepted after the leading byte `x0` (Go's accept
ranges: no surrogates, nothing above U+10FFFF). -/
def acceptHi (x0 : Nat) : Nat :=
  if x0 = 0xED then 0x9F else if x0 = 0xF4 then 0x8F else 0xBF

/-- Whether `b` is a continuation byte, 0x80 to 0xBF. -/
def isContinuation (b : UInt8) : Bool :=
  0x80 ≤ b.toNat && b.toNat ≤ 0xBF

/-- Go's `utf8.DecodeRuneInString`: the first rune of the string and its width
in bytes.  The empty string gives `(RuneError, 0)`; a leading byte that does
not start a valid UTF-8 sequence gives `(RuneError, 1)`. -/
def DecodeRune : GoString → Char × Nat
  | [] => (RuneError, 0)
  | b0 :: rest =>
    let x0 := b0.toNat
    if x0 < 0x80 then (Char.ofNat x0, 1)
    else if x0 < 0xC2 then (RuneError, 1)
    else if x0 < 0xE0 then
      match rest with
      | b1 :: _ =>
          if isContinuation b1 then
            (Char.ofNat ((x0 - 0xC0) * 64 + (b1.toNat - 0x80)), 2)
          else (RuneError, 1)
      | [] => (RuneError, 1)
    else if x0 < 0xF0 then
      match rest with
      | b1 :: b2 :: _ =>
          if acceptLo x0 ≤ b1.toNat && b1.toNat ≤ acceptHi x0 && isContinuation b2 then
            (Char.ofNat ((x0 - 0xE0) * 4096 + (b1.toNat - 0x80) * 64 + (b2.toNat - 0x80)), 3)
          else (RuneError, 1)
      | _ => (RuneError, 1)
    else if x0 < 0xF5 then
      match rest with
      | b1 :: b2 :: b3 :: _ =>
          if acceptLo x0 ≤ b1.toNat && b1.toNat ≤ acceptHi x0 && isContinuation b2
              && isContinuation b3 then
            (Char.ofNat ((x0 - 0xF0) * 262144 + (b1.toNat - 0x80) * 4096
              + (b2.toNat - 0x80) * 64 + (b3.toNat - 0x80)), 4)
          else (RuneError, 1)
      | _ => (RuneError, 1)
    else (RuneError, 1)

/-- Go's `utf8.AppendRune` on a valid rune: its UTF-8 encoding. -/
def EncodeRune (r : Char) : GoString :=
  let n := r.toNat
  if n < 0x80 then [n.toUInt8]
  else if n < 0x800 then [(0xC0 + n / 64).toUInt8, (0x80 + n % 64).toUInt8]
  else if n < 0x10000 then
    [(0xE0 + n / 4096).toUInt8, (0x80 + n / 64 % 64).toUInt8, (0x80 + n % 64).toUInt8]
  else
    [(0xF0 + n / 262144).toUInt8, (0x80 + n / 4096 % 64).toUInt8,
      (0x80 + n / 64 % 64).toUInt8, (0x80 + n % 64).toUInt8]

/-- The runes of a string as a Go `range` loop reads them, after skipping the
first `skip` bytes (the continuation bytes of the rune just read). -/
def runesFrom : Nat → GoString → List Char
  | _, [] => []
  | skip + 1, _ :: rest => runesFrom skip rest
  | 0, b :: rest =>
      (DecodeRune (b :: rest)).1 :: runesFrom ((DecodeRune (b :: rest)).2 - 1) rest

/-- Whether the string, after its first `skip` bytes, decodes without an
invalid byte. -/
def validFrom : Nat → GoString → Bool
  | _, [] => true
  | skip + 1, _ :: rest => validFrom skip rest
  | 0, b :: rest =>
      !((DecodeRune (b :: rest)).1 == RuneError && (DecodeRune (b :: rest)).2 == 1)
        && validFrom ((DecodeRune (b :: rest)).2 - 1) rest

/-- Go's `utf8.ValidString`: whether the string consists entirely of valid
UTF-8-encoded runes. -/
def ValidString (s : GoString) : Bool :=
  validFrom 0 s

end utf8

/-- The Go string that holds the text `t`: its UTF-8 encoding. -/
def GoString.ofText (t : String) : GoString :=
  t.data.flatMap utf8.EncodeRune

/-- The text the JSON encoder writes for a Go string: its runes, where every
byte that does not start a valid UTF-8 sequence reads as U+FFFD. -/
def GoString.runes (s : GoString) : String :=
  ⟨utf8.runesFrom 0 s⟩

/-! ## JSON documents -/

/-- A JSON document, restricted to the value kinds the encoder can emit for
the request records of this package. -/
inductive JsonValue where
  | null
  | bool (b : Bool)
  | str (s : String)
  | obj (members : List (String × JsonValue))

namespace JsonValue

/-- The members of an object, in emission order; empty for a non-object. -/
def members : JsonValue → List (String × JsonValue)
  | obj ms => ms
  | _ => []

/-- Whether the document is a JSON object. -/
def isObject : JsonValue → Bool
  | obj _ => true
  | _ => false

/-- The keys of an object, in emission order. -/
def keys (v : JsonValue) : List String :=
  v.members.map Prod.fst

/-- The value stored under key `k`, if the document is an object that has
that key. -/
def get? (v : JsonValue) (k : String) : Option JsonValue :=
  v.members.lookup k

/-- The value reached by following a path of keys through nested objects. -/
def getPath (v : JsonValue) : List String → Option JsonValue
  | [] => some v
  | k :: ks =>
      match v.get? k with
      | none => none
      | some child => getPath child ks

/-- Whether the document is a non-empty JSON string. -/
def isNonEmptyString : JsonValue → Bool
  | str s => s != ""
  | _ => false

/-- The Go string held under key `k`: the UTF-8 encoding of the JSON string
stored there; `none` when the key is absent or its value is not a string. -/
def getString? (v : JsonValue) (k : String) : Option GoString :=
  match v.get? k with
  | some (str t) => some (GoString.ofText t)
  | _ => none

/-- Whether the object has key `k`. -/
def hasKey (v : JsonValue) (k : String) : Bool :=
  (v.get? k).isSome

end JsonValue

/-! ## Go values and the `encoding/json` encoder -/

/-- Modelled from the spec: the Go `error` values that can flow through the
operations, after the error taxonomy of section 7 (`EncodingError`,
`TransportError`, `DecodingError`, `APIError`); the concrete Go error types
are declared outside `info.go`. -/
inductive error where
  | EncodingError (kind : String)
  | TransportError (cause : String)
  | DecodingError
  | APIError (code : String) (message : String)

/-- The struct tag of a field: its JSON key and whether `omitempty` is set. -/
structure StructTag where
  name : String
  omitempty : Bool

/-- The reflective view of a Go value that `json.Marshal` walks.  `string`,
`bool`, `stringMap` (a `map[string]string`), `nilPointer`/`pointer` and
`struct` are the kinds that occur in the request records of `info.go`;
`unsupported` stands for the kinds the encoder rejects (channels, functions,
complex numbers). -/
inductive GoValue where
  | string (s : GoString)
  | bool (b : Bool)
  | stringMap (entries : List (GoString × GoString))
  | nilPointer
  | pointer (target : GoValue)
  | struct (fields : List (StructTag × GoValue))
  | unsupported (kind : String)

namespace json

/-- Go's `isEmptyValue`: the test behind `omitempty`.  Strings and maps are
empty when their length is zero, a bool when it is false, a pointer when it
is nil; a struct is never empty. -/
def isEmptyValue : GoValue → Bool
  | .string s => s.length == 0
  | .bool b => !b
  | .stringMap entries => entries.length == 0
  | .nilPointer => true
  | .pointer _ => false
  | .struct _ => false
  | .unsupported _ => false

/-- The encoder emits the entries of a map sorted by key. -/
def sortEntries (entries : List (GoString × GoString)) : List (GoString × GoString) :=
  entries.insertionSort (fun a b => a.1 ≤ b.1)

mutual
/-- The encoder on one value.  A string is written rune by rune, an invalid
byte as U+FFFD; a nil pointer is `null`, a pointer encodes its target, a
struct becomes an object of its encoded fields, a map an object of its
sorted entries, keys written like strings; an unsupported kind is an
encoding error. -/
def encode : GoValue → Except error JsonValue
  | .string s => .ok (.str s.runes)
  | .bool b => .ok (.bool b)
  | .stringMap entries =>
      .ok (.obj ((sortEntries entries).map (fun e => (e.1.runes, JsonValue.str e.2.runes))))
  | .nilPointer => .ok .null
  | .pointer target => encode target
  | .struct fields =>
      match encodeFields fields with
      | .error err => .error err
      | .ok members => .ok (.obj members)
  | .unsupported kind => .error (.EncodingError kind)
/-- The encoder on the fields of a struct, in declaration order: a field
tagged `omitempty` whose value is empty is skipped, every other field is
emitted under its tag name. -/
def encodeFields : List (StructTag × GoValue) → Except error (List (String × JsonValue))
  | [] => .ok []
  | (tag, v) :: rest =>
      if tag.omitempty && isEmptyValue v then encodeFields rest
      else
        match encode v with
        | .error err => .error err
        | .ok j =>
            match encodeFields rest with
            | .error err => .error err
            | .ok members => .ok ((tag.name, j) :: members)
end

/-- Go's `json.Marshal` on the reflective view of a value. -/
def Marshal (v : GoValue) : Except error JsonValue :=
  encode v

end json

/-! ## The request records of `info.go` -/

/-- The Go struct `InfoOptions`: options associated with adding an Info user. -/
structure InfoOptions where
  List : Bool

/-- The Go struct `infoJson`. -/
structure infoJson where
  ClientID : GoString
  Secret : GoString
  Type_ : GoString
  Username : GoString
  Password : GoString
  Options : Option InfoOptions

/-- The Go struct `infoStepOptions`. -/
structure infoStepOptions where
  SendMethod : List (GoString × GoString)

/-- The Go struct `infoStepSendMethodJson`. -/
structure infoStepSendMethodJson where
  ClientID : GoString
  Secret : GoString
  AccessToken : GoString
  Options : infoStepOptions

/-- The Go struct `infoStepJson`. -/
structure infoStepJson where
  ClientID : GoString
  Secret : GoString
  AccessToken : GoString
  MFA : GoString

/-- The Go struct `infoGetJson`. -/
structure infoGetJson where
  ClientID : GoString
  Secret : GoString
  AccessToken : GoString

/-- The Go struct `infoUpdateJson`. -/
structure infoUpdateJson where
  ClientID : GoString
  Secret : GoString
  Username : GoString
  Password : GoString
  PIN : GoString
  AccessToken : GoString

/-- The Go struct `infoUpdateStepJson`. -/
structure infoUpdateStepJson where
  ClientID : GoString
  Secret : GoString
  Username : GoString
  Password : GoString
  PIN : GoString
  MFA : GoString
  AccessToken : GoString

/-- The Go struct `infoDeleteJson`. -/
structure infoDeleteJson where
  ClientID : GoString
  Secret : GoString
  AccessToken : GoString

/-- Reflective view of `InfoOptions`: the field tag is `json:"list,omitempty"`. -/
def InfoOptions.reflect (o : InfoOptions) : GoValue :=
  .struct [(⟨"list", true⟩, .bool o.List)]

/-- Reflective view of an `*InfoOptions`. -/
def InfoOptions.reflectPointer : Option InfoOptions → GoValue
  | none => .nilPointer
  | some o => .pointer o.reflect

/-- Reflective view of `infoJson`, with the field tags of its declaration. -/
def infoJson.reflect (r : infoJson) : GoValue :=
  .struct [
    (⟨"client_id", false⟩, .string r.ClientID),
    (⟨"secret", false⟩, .string r.Secret),
    (⟨"type", false⟩, .string r.Type_),
    (⟨"username", false⟩, .string r.Username),
    (⟨"password", false⟩, .string r.Password),
    (⟨"options", true⟩, InfoOptions.reflectPointer r.Options)]

/-- Reflective view of `infoStepOptions`. -/
def infoStepOptions.reflect (o : infoStepOptions) : GoValue :=
  .struct [(⟨"send_method", false⟩, .stringMap o.SendMethod)]

/-- Reflective view of `infoStepSendMethodJson`. -/
def infoStepSendMethodJson.reflect (r : infoStepSendMethodJson) : GoValue :=
  .struct [
    (⟨"client_id", false⟩, .string r.ClientID),
    (⟨"secret", false⟩, .string r.Secret),
    (⟨"access_token", false⟩, .string r.AccessToken),
    (⟨"options", false⟩, r.Options.reflect)]

/-- Reflective view of `infoStepJson`. -/
def infoStepJson.reflect (r : infoStepJson) : GoValue :=
  .struct [
    (⟨"client_id", false⟩, .string r.ClientID),
    (⟨"secret", false⟩, .string r.Secret),
    (⟨"access_token", false⟩, .string r.AccessToken),
    (⟨"mfa", false⟩, .string r.MFA)]

/-- Reflective view of `infoGetJson`. -/
def infoGetJson.reflect (r : infoGetJson) : GoValue :=
  .struct [
    (⟨"client_id", false⟩, .string r.ClientID),
    (⟨"secret", false⟩, .string r.Secret),
    (⟨"access_token", false⟩, .string r.AccessToken)]

/-- Reflective view of `infoUpdateJson`. -/
def infoUpdateJson.reflect (r : infoUpdateJson) : GoValue :=
  .struct [
    (⟨"client_id", false⟩, .string r.ClientID),
    (⟨"secret", false⟩, .string r.Secret),
    (⟨"username", false⟩, .string r.Username),
    (⟨"password", false⟩, .string r.Password),
    (⟨"pin", true⟩, .string r.PIN),
    (⟨"access_token", false⟩, .string r.AccessToken)]

/-- Reflective view of `infoUpdateStepJson`. -/
def infoUpdateStepJson.reflect (r : infoUpdateStepJson) : GoValue :=
  .struct [
    (⟨"client_id", false⟩, .string r.ClientID),
    (⟨"secret", false⟩, .string r.Secret),
    (⟨"username", false⟩, .string r.Username),
    (⟨"password", false⟩, .string r.Password),
    (⟨"pin", true⟩, .string r.PIN),
    (⟨"mfa", false⟩, .string r.MFA),
    (⟨"access_token", false⟩, .string r.AccessToken)]

/-- Reflective view of `infoDeleteJson`. -/
def infoDeleteJson.reflect (r : infoDeleteJson) : GoValue :=
  .struct [
    (⟨"client_id", false⟩, .string r.ClientID),
    (⟨"secret", false⟩, .string r.Secret),
    (⟨"access_token", false⟩, .string r.AccessToken)]

/-! ## The client and the envelope codec -/

/-- Modelled from the spec: the `Client` type is declared outside `info.go`;
the operations read its credential pair `clientID` and `secret`, which the
spec describes as held by the client object and attached to every request. -/
structure Client where
  clientID : GoString
  secret : GoString

namespace bytes

/-- The `io.Reader` handed to the codec: it yields the marshalled document. -/
structure Reader where
  content : JsonValue

/-- Go's `bytes.NewReader`. -/
def NewReader (b : JsonValue) : Reader :=
  ⟨b⟩

end bytes

/-- The result of the POST and PATCH operations: the success payload, the
MFA payload and the error, each possibly nil. -/
abbrev PostResult (postResponse mfaResponse : Type) : Type :=
  Option postResponse × Option mfaResponse × Option error

/-- The result of the DELETE operation: the confirmation payload and the
error, each possibly nil. -/
abbrev DeleteResult (deleteResponse : Type) : Type :=
  Option deleteResponse × Option error

/-- The three verb functions of the envelope codec, methods of `Client`
declared outside `info.go`.  They are parameters of the operations; `σ` is
the state of the world they act on, and the payload types `postResponse`,
`mfaResponse`, `deleteResponse` are declared outside `info.go` as well. -/
structure Codec (σ postResponse mfaResponse deleteResponse : Type) where
  postAndUnmarshal :
    Client → String → bytes.Reader → σ → PostResult postResponse mfaResponse × σ
  patchAndUnmarshal :
    Client → String → bytes.Reader → σ → PostResult postResponse mfaResponse × σ
  deleteAndUnmarshal :
    Client → String → bytes.Reader → σ → DeleteResult deleteResponse × σ

section Operations

variable {σ postResponse mfaResponse deleteResponse : Type}

/-- The operation `InfoAddUser` (POST /info). -/
def Client.InfoAddUser (codec : Codec σ postResponse mfaResponse deleteResponse)
    (c : Client) (username password institutionType : GoString)
    (options : Option InfoOptions) (w : σ) :
    PostResult postResponse mfaResponse × σ :=
  match json.Marshal (infoJson.reflect ⟨
      c.clientID,
      c.secret,
      institutionType,
      username,
      password,
      options⟩) with
  | .error err => ((none, none, some err), w)
  | .ok jsonText => codec.postAndUnmarshal c "/info" (bytes.NewReader jsonText) w

/-- The operation `infoStepSendMethod` (POST /info/step). -/
def Client.infoStepSendMethod (codec : Codec σ postResponse mfaResponse deleteResponse)
    (c : Client) (accessToken key value : GoString) (w : σ) :
    PostResult postResponse mfaResponse × σ :=
  let sendMethod : List (GoString × GoString) := [(key, value)]
  match json.Marshal (infoStepSendMethodJson.reflect ⟨
      c.clientID,
      c.secret,
      accessToken,
      ⟨sendMethod⟩⟩) with
  | .error err => ((none, none, some err), w)
  | .ok jsonText => codec.postAndUnmarshal c "/info/step" (bytes.NewReader jsonText) w

/-- The operation `InfoStep` (POST /info/step). -/
def Client.InfoStep (codec : Codec σ postResponse mfaResponse deleteResponse)
    (c : Client) (accessToken answer : GoString) (w : σ) :
    PostResult postResponse mfaResponse × σ :=
  match json.Marshal (infoStepJson.reflect ⟨
      c.clientID,
      c.secret,
      accessToken,
      answer⟩) with
  | .error err => ((none, none, some err), w)
  | .ok jsonText => codec.postAndUnmarshal c "/info/step" (bytes.NewReader jsonText) w

/-- The operation `InfoGet` (POST /info/get). -/
def Client.InfoGet (codec : Codec σ postResponse mfaResponse deleteResponse)
    (c : Client) (accessToken : GoString) (w : σ) :
    PostResult postResponse mfaResponse × σ :=
  match json.Marshal (infoGetJson.reflect ⟨
      c.clientID,
      c.secret,
      accessToken⟩) with
  | .error err => ((none, none, some err), w)
  | .ok jsonText => codec.postAndUnmarshal c "/info/get" (bytes.NewReader jsonText) w

/-- The operation `InfoUpdate` (PATCH /info). -/
def Client.InfoUpdate (codec : Codec σ postResponse mfaResponse deleteResponse)
    (c : Client) (username password pin accessToken : GoString) (w : σ) :
    PostResult postResponse mfaResponse × σ :=
  match json.Marshal (infoUpdateJson.reflect ⟨
      c.clientID,
      c.secret,
      username,
      password,
      pin,
      accessToken⟩) with
  | .error err => ((none, none, some err), w)
  | .ok jsonText => codec.patchAndUnmarshal c "/info" (bytes.NewReader jsonText) w

/-- The operation `InfoUpdateStep` (PATCH /info/step). -/
def Client.InfoUpdateStep (codec : Codec σ postResponse mfaResponse deleteResponse)
    (c : Client) (username password pin mfa accessToken : GoString) (w : σ) :
    PostResult postResponse mfaResponse × σ :=
  match json.Marshal (infoUpdateStepJson.reflect ⟨
      c.clientID,
      c.secret,
      username,
      password,
      pin,
      mfa,
      accessToken⟩) with
  | .error err => ((none, none, some err), w)
  | .ok jsonText => codec.patchAndUnmarshal c "/info/step" (bytes.NewReader jsonText) w

/-- The operation `InfoDelete` (DELETE /info). -/
def Client.InfoDelete (codec : Codec σ postResponse mfaResponse deleteResponse)
    (c : Client) (accessToken : GoString) (w : σ) :
    DeleteResult deleteResponse × σ :=
  match json.Marshal (infoDeleteJson.reflect ⟨
      c.clientID,
      c.secret,
      accessToken⟩) with
  | .error err => ((none, some err), w)
  | .ok jsonText => codec.deleteAndUnmarshal c "/info" (bytes.NewReader jsonText) w

end Operations

/-! ## Observing the call an operation makes -/

/-- The HTTP verbs used by the codec. -/
inductive Verb where
  | POST
  | PATCH
  | DELETE

/-- One invocation of a codec verb function: verb, path and body. -/
structure CodecCall where
  verb : Verb
  path : String
  body : JsonValue

/-- A codec over a call log: each verb function appends its invocation to
the log and returns nil payloads and a nil error. -/
def recorder : Codec (List CodecCall) Unit Unit Unit where
  postAndUnmarshal := fun _ path body log =>
    ((none, none, none), log ++ [⟨.POST, path, body.content⟩])
  patchAndUnmarshal := fun _ path body log =>
    ((none, none, none), log ++ [⟨.PATCH, path, body.content⟩])
  deleteAndUnmarshal := fun _ path body log =>
    ((none, none), log ++ [⟨.DELETE, path, body.content⟩])

/-- The codec calls made by an operation run from the empty log. -/
def callsOf {ρ : Type}
    (op : Codec (List CodecCall) Unit Unit Unit → List CodecCall → ρ × List CodecCall) :
    List CodecCall :=
  (op recorder []).2

/-- The request body an operation hands to the codec, when it makes exactly
one codec call. -/
def bodyOf {ρ : Type}
    (op : Codec (List CodecCall) Unit Unit Unit → List CodecCall → ρ × List CodecCall) :
    Option JsonValue :=
  match callsOf op with
  | [call] => some call.body
  | _ => none

/-- Whether the object holds a non-empty string under key `k`. -/
def JsonValue.hasNonEmpty (v : JsonValue) (k : String) : Bool :=
  match v.get? k with
  | some child => child.isNonEmptyString
  | none => false

/-! ## Expected wire members of the optional fields -/

/-- The members the encoder emits for the `options` field of `infoJson`. -/
def optionsMembers : Option InfoOptions → List (String × JsonValue)
  | none => []
  | some o => [("options", .obj (if o.List then [("list", .bool true)] else []))]

/-- The members the encoder emits for a `pin` field tagged `omitempty`. -/
def pinMembers (pin : GoString) : List (String × JsonValue) :=
  if pin = [] then [] else [("pin", .str pin.runes)]

/-! ## UTF-8: decoding and encoding are inverse on valid strings -/

namespace utf8

theorem toNat_toUInt8 {n : Nat} (h : n < 256) : (n.toUInt8).toNat = n :=
  UInt8.toNat_ofNat_of_lt h

theorem toUInt8_toNat (b : UInt8) : b.toNat.toUInt8 = b := by
  cases b with
  | mk v =>
    apply UInt8.eq_of_val_eq
    apply Fin.ext
    show (v.toNat % 256) = v.toNat
    exact Nat.mod_eq_of_lt v.isLt

theorem toNat_lt (b : UInt8) : b.toNat < 256 := UInt8.toNat_lt_size b

theorem toNat_ofNat_valid {n : Nat} (h : n < 0xD800 ∨ (0xDFFF < n ∧ n < 0x110000)) :
    (Char.ofNat n).toNat = n := by
  have hv : n.isValidChar := h
  simp only [Char.ofNat, hv, dite_true]
  rfl

theorem char_valid (c : Char) : c.toNat < 0xD800 ∨ (0xDFFF < c.toNat ∧ c.toNat < 0x110000) :=
  c.valid


theorem DecodeRune_cons1 (b0 : UInt8) (rest : GoString) (h : b0.toNat < 0x80) :
    DecodeRune (b0 :: rest) = (Char.ofNat b0.toNat, 1) := by
  simp [DecodeRune, h]

theorem DecodeRune_cons2 (b0 b1 : UInt8) (rest : GoString)
    (h0 : 0xC2 ≤ b0.toNat) (h0' : b0.toNat < 0xE0)
    (h1 : 0x80 ≤ b1.toNat) (h1' : b1.toNat ≤ 0xBF) :
    DecodeRune (b0 :: b1 :: rest)
      = (Char.ofNat ((b0.toNat - 0xC0) * 64 + (b1.toNat - 0x80)), 2) := by
  have a1 : ¬ b0.toNat < 0x80 := by omega
  have a2 : ¬ b0.toNat < 0xC2 := by omega
  simp [DecodeRune, a1, a2, h0', isContinuation, h1, h1']

theorem DecodeRune_cons3 (b0 b1 b2 : UInt8) (rest : GoString)
    (h0 : 0xE0 ≤ b0.toNat) (h0' : b0.toNat < 0xF0)
    (h1 : acceptLo b0.toNat ≤ b1.toNat) (h1' : b1.toNat ≤ acceptHi b0.toNat)
    (h2 : 0x80 ≤ b2.toNat) (h2' : b2.toNat ≤ 0xBF) :
    DecodeRune (b0 :: b1 :: b2 :: rest)
      = (Char.ofNat ((b0.toNat - 0xE0) * 4096 + (b1.toNat - 0x80) * 64 + (b2.toNat - 0x80)), 3) := by
  have a1 : ¬ b0.toNat < 0x80 := by omega
  have a2 : ¬ b0.toNat < 0xC2 := by omega
  have a3 : ¬ b0.toNat < 0xE0 := by omega
  simp [DecodeRune, a1, a2, a3, h0', isContinuation, h1, h1', h2, h2']

theorem DecodeRune_cons4 (b0 b1 b2 b3 : UInt8) (rest : GoString)
    (h0 : 0xF0 ≤ b0.toNat) (h0' : b0.toNat < 0xF5)
    (h1 : acceptLo b0.toNat ≤ b1.toNat) (h1' : b1.toNat ≤ acceptHi b0.toNat)
    (h2 : 0x80 ≤ b2.toNat) (h2' : b2.toNat ≤ 0xBF)
    (h3 : 0x80 ≤ b3.toNat) (h3' : b3.toNat ≤ 0xBF) :
    DecodeRune (b0 :: b1 :: b2 :: b3 :: rest)
      = (Char.ofNat ((b0.toNat - 0xF0) * 262144 + (b1.toNat - 0x80) * 4096
          + (b2.toNat - 0x80) * 64 + (b3.toNat - 0x80)), 4) := by
  have a1 : ¬ b0.toNat < 0x80 := by omega
  have a2 : ¬ b0.toNat < 0xC2 := by omega
  have a3 : ¬ b0.toNat < 0xE0 := by omega
  have a4 : ¬ b0.toNat < 0xF0 := by omega
  simp [DecodeRune, a1, a2, a3, a4, h0', isContinuation, h1, h1', h2, h2', h3, h3']

theorem DecodeRune_EncodeRune (c : Char) (rest : GoString) :
    DecodeRune (EncodeRune c ++ rest) = (c, (EncodeRune c).length) := by
  have hv := char_valid c
  have hc : Char.ofNat c.toNat = c := Char.ofNat_toNat c
  unfold EncodeRune
  simp only []
  generalize c.toNat = n at hv hc ⊢
  by_cases h1 : n < 0x80
  · simp only [h1, if_true, List.cons_append, List.nil_append, List.length_singleton]
    rw [DecodeRune_cons1 _ _ (by rw [toNat_toUInt8 (by omega)]; exact h1),
      toNat_toUInt8 (by omega), hc]
  · by_cases h2 : n < 0x800
    · simp only [h1, h2, if_true, if_false, List.cons_append, List.nil_append, List.length_cons,
        List.length_nil]
      have e0 : (0xC0 + n / 64).toUInt8.toNat = 0xC0 + n / 64 := toNat_toUInt8 (by omega)
      have e1 : (0x80 + n % 64).toUInt8.toNat = 0x80 + n % 64 := toNat_toUInt8 (by omega)
      rw [DecodeRune_cons2 _ _ _ (by omega) (by omega) (by omega) (by omega), e0, e1]
      have : (0xC0 + n / 64 - 0xC0) * 64 + (0x80 + n % 64 - 0x80) = n := by omega
      rw [this, hc]
    · by_cases h3 : n < 0x10000
      · simp only [h1, h2, h3, if_true, if_false, List.cons_append, List.nil_append,
          List.length_cons, List.length_nil]
        have e0 : (0xE0 + n / 4096).toUInt8.toNat = 0xE0 + n / 4096 := toNat_toUInt8 (by omega)
        have e1 : (0x80 + n / 64 % 64).toUInt8.toNat = 0x80 + n / 64 % 64 :=
          toNat_toUInt8 (by omega)
        have e2 : (0x80 + n % 64).toUInt8.toNat = 0x80 + n % 64 := toNat_toUInt8 (by omega)
        rw [DecodeRune_cons3 _ _ _ _ (by omega) (by omega)
          (by rw [e0, e1]; unfold acceptLo; split_ifs <;> omega)
          (by rw [e0, e1]; unfold acceptHi; split_ifs <;> omega)
          (by omega) (by omega), e0, e1, e2]
        have : (0xE0 + n / 4096 - 0xE0) * 4096 + (0x80 + n / 64 % 64 - 0x80) * 64
            + (0x80 + n % 64 - 0x80) = n := by omega
        rw [this, hc]
      · simp only [h1, h2, h3, if_false, List.cons_append, List.nil_append,
          List.length_cons, List.length_nil]
        have e0 : (0xF0 + n / 262144).toUInt8.toNat = 0xF0 + n / 262144 :=
          toNat_toUInt8 (by omega)
        have e1 : (0x80 + n / 4096 % 64).toUInt8.toNat = 0x80 + n / 4096 % 64 :=
          toNat_toUInt8 (by omega)
        have e2 : (0x80 + n / 64 % 64).toUInt8.toNat = 0x80 + n / 64 % 64 :=
          toNat_toUInt8 (by omega)
        have e3 : (0x80 + n % 64).toUInt8.toNat = 0x80 + n % 64 := toNat_toUInt8 (by omega)
        rw [DecodeRune_cons4 _ _ _ _ _ (by omega) (by omega)
          (by rw [e0, e1]; unfold acceptLo; split_ifs <;> omega)
          (by rw [e0, e1]; unfold acceptHi; split_ifs <;> omega)
          (by omega) (by omega) (by omega) (by omega), e0, e1, e2, e3]
        have : (0xF0 + n / 262144 - 0xF0) * 262144 + (0x80 + n / 4096 % 64 - 0x80) * 4096
            + (0x80 + n / 64 % 64 - 0x80) * 64 + (0x80 + n % 64 - 0x80) = n := by omega
        rw [this, hc]


theorem acceptLo_bounds (x0 : Nat) :
    0x80 ≤ acceptLo x0 ∧ (x0 = 0xE0 → acceptLo x0 = 0xA0) ∧ (x0 = 0xF0 → acceptLo x0 = 0x90) := by
  unfold acceptLo
  split_ifs <;> omega

theorem acceptHi_bounds (x0 : Nat) :
    acceptHi x0 ≤ 0xBF ∧ (x0 = 0xED → acceptHi x0 = 0x9F) ∧ (x0 = 0xF4 → acceptHi x0 = 0x8F) := by
  unfold acceptHi
  split_ifs <;> omega

theorem EncodeRune_ofNat1 (b0 : UInt8) (h : b0.toNat < 0x80) :
    EncodeRune (Char.ofNat b0.toNat) = [b0] := by
  have hn : (Char.ofNat b0.toNat).toNat = b0.toNat := toNat_ofNat_valid (by omega)
  unfold EncodeRune
  simp only [hn, h, if_true, toUInt8_toNat]

theorem EncodeRune_ofNat2 (b0 b1 : UInt8)
    (h0 : 0xC2 ≤ b0.toNat) (h0' : b0.toNat < 0xE0)
    (h1 : 0x80 ≤ b1.toNat) (h1' : b1.toNat ≤ 0xBF) :
    EncodeRune (Char.ofNat ((b0.toNat - 0xC0) * 64 + (b1.toNat - 0x80))) = [b0, b1] := by
  generalize hn : (b0.toNat - 0xC0) * 64 + (b1.toNat - 0x80) = n
  have hv : (Char.ofNat n).toNat = n := toNat_ofNat_valid (by omega)
  have a1 : ¬ n < 0x80 := by omega
  have a2 : n < 0x800 := by omega
  have e0 : 0xC0 + n / 64 = b0.toNat := by omega
  have e1 : 0x80 + n % 64 = b1.toNat := by omega
  unfold EncodeRune
  simp only [hv, a1, a2, if_true, if_false, e0, e1, toUInt8_toNat]

theorem EncodeRune_ofNat3 (b0 b1 b2 : UInt8)
    (h0 : 0xE0 ≤ b0.toNat) (h0' : b0.toNat < 0xF0)
    (h1 : acceptLo b0.toNat ≤ b1.toNat) (h1' : b1.toNat ≤ acceptHi b0.toNat)
    (h2 : 0x80 ≤ b2.toNat) (h2' : b2.toNat ≤ 0xBF) :
    EncodeRune (Char.ofNat
      ((b0.toNat - 0xE0) * 4096 + (b1.toNat - 0x80) * 64 + (b2.toNat - 0x80))) = [b0, b1, b2] := by
  have hlo := acceptLo_bounds b0.toNat
  have hhi := acceptHi_bounds b0.toNat
  generalize hn : (b0.toNat - 0xE0) * 4096 + (b1.toNat - 0x80) * 64 + (b2.toNat - 0x80) = n
  have hv : (Char.ofNat n).toNat = n := toNat_ofNat_valid (by omega)
  have a1 : ¬ n < 0x80 := by omega
  have a2 : ¬ n < 0x800 := by omega
  have a3 : n < 0x10000 := by omega
  have e0 : 0xE0 + n / 4096 = b0.toNat := by omega
  have e1 : 0x80 + n / 64 % 64 = b1.toNat := by omega
  have e2 : 0x80 + n % 64 = b2.toNat := by omega
  unfold EncodeRune
  simp only [hv, a1, a2, a3, if_true, if_false, e0, e1, e2, toUInt8_toNat]

theorem EncodeRune_ofNat4 (b0 b1 b2 b3 : UInt8)
    (h0 : 0xF0 ≤ b0.toNat) (h0' : b0.toNat < 0xF5)
    (h1 : acceptLo b0.toNat ≤ b1.toNat) (h1' : b1.toNat ≤ acceptHi b0.toNat)
    (h2 : 0x80 ≤ b2.toNat) (h2' : b2.toNat ≤ 0xBF)
    (h3 : 0x80 ≤ b3.toNat) (h3' : b3.toNat ≤ 0xBF) :
    EncodeRune (Char.ofNat ((b0.toNat - 0xF0) * 262144 + (b1.toNat - 0x80) * 4096
      + (b2.toNat - 0x80) * 64 + (b3.toNat - 0x80))) = [b0, b1, b2, b3] := by
  have hlo := acceptLo_bounds b0.toNat
  have hhi := acceptHi_bounds b0.toNat
  generalize hn : (b0.toNat - 0xF0) * 262144 + (b1.toNat - 0x80) * 4096
      + (b2.toNat - 0x80) * 64 + (b3.toNat - 0x80) = n
  have hv : (Char.ofNat n).toNat = n := toNat_ofNat_valid (by omega)
  have a1 : ¬ n < 0x80 := by omega
  have a2 : ¬ n < 0x800 := by omega
  have a3 : ¬ n < 0x10000 := by omega
  have e0 : 0xF0 + n / 262144 = b0.toNat := by omega
  have e1 : 0x80 + n / 4096 % 64 = b1.toNat := by omega
  have e2 : 0x80 + n / 64 % 64 = b2.toNat := by omega
  have e3 : 0x80 + n % 64 = b3.toNat := by omega
  unfold EncodeRune
  simp only [hv, a1, a2, a3, if_false, e0, e1, e2, e3, toUInt8_toNat]

/-- The outcome of `DecodeRune` on a non-empty string: either the invalid
outcome `(RuneError, 1)`, or a rune whose encoding is the leading bytes. -/
theorem DecodeRune_cases (b0 : UInt8) (rest : GoString) :
    DecodeRune (b0 :: rest) = (RuneError, 1) ∨
    (1 ≤ (DecodeRune (b0 :: rest)).2 ∧
      EncodeRune (DecodeRune (b0 :: rest)).1
        = (b0 :: rest).take (DecodeRune (b0 :: rest)).2) := by
  by_cases c1 : b0.toNat < 0x80
  · right
    rw [DecodeRune_cons1 _ _ c1]
    exact ⟨Nat.le_refl 1, by simp [EncodeRune_ofNat1 b0 c1]⟩
  by_cases c2 : b0.toNat < 0xC2
  · left
    simp [DecodeRune, c1, c2]
  by_cases c3 : b0.toNat < 0xE0
  · cases rest with
    | nil => left; simp [DecodeRune, c1, c2, c3]
    | cons b1 rest =>
      by_cases k1 : 0x80 ≤ b1.toNat ∧ b1.toNat ≤ 0xBF
      · right
        rw [DecodeRune_cons2 _ _ _ (by omega) c3 k1.1 k1.2]
        exact ⟨by omega, by simp [EncodeRune_ofNat2 b0 b1 (by omega) c3 k1.1 k1.2]⟩
      · left
        have : isContinuation b1 = false := by
          simp only [isContinuation, Bool.and_eq_false_imp, decide_eq_true_eq, decide_eq_false_iff_not]
          intro h; omega
        simp [DecodeRune, c1, c2, c3, this]
  by_cases c4 : b0.toNat < 0xF0
  · match rest with
    | [] => left; simp [DecodeRune, c1, c2, c3, c4]
    | [_] => left; simp [DecodeRune, c1, c2, c3, c4]
    | b1 :: b2 :: rest =>
      by_cases k : (acceptLo b0.toNat ≤ b1.toNat ∧ b1.toNat ≤ acceptHi b0.toNat) ∧
          (0x80 ≤ b2.toNat ∧ b2.toNat ≤ 0xBF)
      · right
        rw [DecodeRune_cons3 _ _ _ _ (by omega) c4 k.1.1 k.1.2 k.2.1 k.2.2]
        exact ⟨by omega,
          by simp [EncodeRune_ofNat3 b0 b1 b2 (by omega) c4 k.1.1 k.1.2 k.2.1 k.2.2]⟩
      · left
        have : (decide (acceptLo b0.toNat ≤ b1.toNat) && decide (b1.toNat ≤ acceptHi b0.toNat)
            && isContinuation b2) = false := by
          rw [Bool.eq_false_iff]
          intro h
          simp only [isContinuation, Bool.and_eq_true, decide_eq_true_eq] at h
          exact k (by tauto)
        simp [DecodeRune, c1, c2, c3, c4, this]
  by_cases c5 : b0.toNat < 0xF5
  · match rest with
    | [] => left; simp [DecodeRune, c1, c2, c3, c4, c5]
    | [_] => left; simp [DecodeRune, c1, c2, c3, c4, c5]
    | [_, _] => left; simp [DecodeRune, c1, c2, c3, c4, c5]
    | b1 :: b2 :: b3 :: rest =>
      by_cases k : (acceptLo b0.toNat ≤ b1.toNat ∧ b1.toNat ≤ acceptHi b0.toNat) ∧
          (0x80 ≤ b2.toNat ∧ b2.toNat ≤ 0xBF) ∧ (0x80 ≤ b3.toNat ∧ b3.toNat ≤ 0xBF)
      · right
        rw [DecodeRune_cons4 _ _ _ _ _ (by omega) c5 k.1.1 k.1.2 k.2.1.1 k.2.1.2 k.2.2.1 k.2.2.2]
        exact ⟨by omega, by simp [EncodeRune_ofNat4 b0 b1 b2 b3 (by omega) c5 k.1.1 k.1.2
          k.2.1.1 k.2.1.2 k.2.2.1 k.2.2.2]⟩
      · left
        have : (decide (acceptLo b0.toNat ≤ b1.toNat) && decide (b1.toNat ≤ acceptHi b0.toNat)
            && isContinuation b2 && isContinuation b3) = false := by
          rw [Bool.eq_false_iff]
          intro h
          simp only [isContinuation, Bool.and_eq_true, decide_eq_true_eq] at h
          exact k (by tauto)
        simp [DecodeRune, c1, c2, c3, c4, c5, this]
  · left
    simp [DecodeRune, c1, c2, c3, c4, c5]


theorem runesFrom_skip (pre rest : GoString) :
    runesFrom pre.length (pre ++ rest) = runesFrom 0 rest := by
  induction pre with
  | nil => rfl
  | cons b pre ih => simpa [runesFrom] using ih

theorem validFrom_skip (pre rest : GoString) :
    validFrom pre.length (pre ++ rest) = validFrom 0 rest := by
  induction pre with
  | nil => rfl
  | cons b pre ih => simpa [validFrom] using ih

theorem EncodeRune_ne_nil (c : Char) : ∃ b0 tl, EncodeRune c = b0 :: tl := by
  unfold EncodeRune
  simp only []
  split_ifs <;> exact ⟨_, _, rfl⟩

theorem runesFrom_EncodeRune (c : Char) (rest : GoString) :
    runesFrom 0 (EncodeRune c ++ rest) = c :: runesFrom 0 rest := by
  obtain ⟨b0, tl, he⟩ := EncodeRune_ne_nil c
  have hd := DecodeRune_EncodeRune c rest
  rw [he] at hd ⊢
  simp only [List.cons_append] at hd ⊢
  simp only [runesFrom, hd, List.length_cons, Nat.add_sub_cancel]
  rw [runesFrom_skip]

theorem EncodeRune_RuneError_length : (EncodeRune RuneError).length = 3 := by decide

theorem validFrom_EncodeRune (c : Char) (rest : GoString) :
    validFrom 0 (EncodeRune c ++ rest) = validFrom 0 rest := by
  obtain ⟨b0, tl, he⟩ := EncodeRune_ne_nil c
  have hd := DecodeRune_EncodeRune c rest
  have hlen : c = RuneError → tl.length + 1 ≠ 1 := by
    intro hc
    have := EncodeRune_RuneError_length
    rw [← hc, he] at this
    simp at this
    omega
  rw [he] at hd ⊢
  simp only [List.cons_append] at hd ⊢
  simp only [validFrom, hd, List.length_cons, Nat.add_sub_cancel]
  rw [validFrom_skip]
  by_cases hc : c = RuneError
  · have hne : tl ≠ [] := by
      intro e
      exact hlen hc (by simp [e])
    simp [hne]
  · simp [hc]

theorem flatMap_runesFrom (s : GoString) (k : Nat) (h : validFrom k s = true) :
    (runesFrom k s).flatMap EncodeRune = s.drop k := by
  induction s generalizing k with
  | nil => simp [runesFrom]
  | cons b rest ih =>
    cases k with
    | succ j =>
      simp only [validFrom] at h
      simpa [runesFrom] using ih j h
    | zero =>
      simp only [validFrom, Bool.and_eq_true, Bool.not_eq_true', Bool.and_eq_false_imp,
        beq_iff_eq] at h
      rcases DecodeRune_cases b rest with hbad | ⟨hsize, henc⟩
      · exfalso
        have h1 := h.1
        rw [hbad] at h1
        simp at h1
      · have ih2 := ih _ h.2
        simp only [runesFrom, List.flatMap_cons, henc, ih2, List.drop_zero]
        generalize (DecodeRune (b :: rest)).2 = size at hsize
        obtain ⟨m, rfl⟩ : ∃ m, size = m + 1 := ⟨size - 1, by omega⟩
        simp only [Nat.add_sub_cancel, List.take_succ_cons, List.cons_append,
          List.take_append_drop]

theorem runesFrom_ne_nil (b : UInt8) (rest : GoString) : runesFrom 0 (b :: rest) ≠ [] := by
  simp [runesFrom]

end utf8

theorem GoString.runes_ofText (t : String) : GoString.runes (GoString.ofText t) = t := by
  have key : ∀ cs : List Char, utf8.runesFrom 0 (cs.flatMap utf8.EncodeRune) = cs := by
    intro cs
    induction cs with
    | nil => rfl
    | cons c cs ih => rw [List.flatMap_cons, utf8.runesFrom_EncodeRune, ih]
  cases t with
  | mk cs => simp only [GoString.runes, GoString.ofText, key]

theorem utf8.ValidString_ofText (t : String) : utf8.ValidString (GoString.ofText t) = true := by
  have key : ∀ cs : List Char, utf8.validFrom 0 (cs.flatMap utf8.EncodeRune) = true := by
    intro cs
    induction cs with
    | nil => rfl
    | cons c cs ih => rw [List.flatMap_cons, utf8.validFrom_EncodeRune, ih]
  exact key t.data

theorem GoString.ofText_runes (s : GoString) (h : utf8.ValidString s = true) :
    GoString.ofText (GoString.runes s) = s := by
  simpa [GoString.ofText, GoString.runes] using utf8.flatMap_runesFrom s 0 h

theorem GoString.runes_eq_empty (s : GoString) : GoString.runes s = "" ↔ s = [] := by
  cases s with
  | nil => simp [GoString.runes, utf8.runesFrom]
  | cons b rest =>
    simp only [GoString.runes, reduceCtorEq, iff_false]
    intro h
    have := congrArg String.data h
    exact utf8.runesFrom_ne_nil b rest this

/-! ## What the encoder emits for each request record -/

theorem length_beq_zero (s : GoString) : (s.length == 0) = decide (s = []) := by
  cases s <;> simp

theorem Marshal_infoJson (r : infoJson) :
    json.Marshal r.reflect = .ok (.obj ([
      ("client_id", .str r.ClientID.runes), ("secret", .str r.Secret.runes), ("type", .str r.Type_.runes),
      ("username", .str r.Username.runes), ("password", .str r.Password.runes)]
      ++ optionsMembers r.Options)) := by
  obtain ⟨a, b, t, u, p, o⟩ := r
  cases o with
  | none =>
    simp [json.Marshal, json.encode, json.encodeFields, json.isEmptyValue, infoJson.reflect,
      InfoOptions.reflectPointer, optionsMembers]
  | some o =>
    obtain ⟨l⟩ := o
    cases l <;>
    simp [json.Marshal, json.encode, json.encodeFields, json.isEmptyValue, infoJson.reflect,
      InfoOptions.reflectPointer, InfoOptions.reflect, optionsMembers]

theorem Marshal_infoStepSendMethodJson (a b t key value : GoString) :
    json.Marshal (infoStepSendMethodJson.reflect ⟨a, b, t, ⟨[(key, value)]⟩⟩) = .ok (.obj [
      ("client_id", .str a.runes), ("secret", .str b.runes), ("access_token", .str t.runes),
      ("options", .obj [("send_method", .obj [(key.runes, .str value.runes)])])]) := by
  simp [json.Marshal, json.encode, json.encodeFields, json.isEmptyValue,
    infoStepSendMethodJson.reflect, infoStepOptions.reflect, json.sortEntries]

theorem Marshal_infoStepJson (r : infoStepJson) :
    json.Marshal r.reflect = .ok (.obj [
      ("client_id", .str r.ClientID.runes), ("secret", .str r.Secret.runes),
      ("access_token", .str r.AccessToken.runes), ("mfa", .str r.MFA.runes)]) := by
  simp [json.Marshal, json.encode, json.encodeFields, json.isEmptyValue, infoStepJson.reflect]

theorem Marshal_infoGetJson (r : infoGetJson) :
    json.Marshal r.reflect = .ok (.obj [
      ("client_id", .str r.ClientID.runes), ("secret", .str r.Secret.runes),
      ("access_token", .str r.AccessToken.runes)]) := by
  simp [json.Marshal, json.encode, json.encodeFields, json.isEmptyValue, infoGetJson.reflect]

theorem Marshal_infoUpdateJson (r : infoUpdateJson) :
    json.Marshal r.reflect = .ok (.obj ([
      ("client_id", .str r.ClientID.runes), ("secret", .str r.Secret.runes),
      ("username", .str r.Username.runes), ("password", .str r.Password.runes)]
      ++ pinMembers r.PIN ++ [("access_token", .str r.AccessToken.runes)])) := by
  by_cases h : r.PIN = [] <;>
  simp [json.Marshal, json.encode, json.encodeFields, json.isEmptyValue, infoUpdateJson.reflect,
    pinMembers, length_beq_zero, h]

theorem Marshal_infoUpdateStepJson (r : infoUpdateStepJson) :
    json.Marshal r.reflect = .ok (.obj ([
      ("client_id", .str r.ClientID.runes), ("secret", .str r.Secret.runes),
      ("username", .str r.Username.runes), ("password", .str r.Password.runes)]
      ++ pinMembers r.PIN
      ++ [("mfa", .str r.MFA.runes), ("access_token", .str r.AccessToken.runes)])) := by
  by_cases h : r.PIN = [] <;>
  simp [json.Marshal, json.encode, json.encodeFields, json.isEmptyValue,
    infoUpdateStepJson.reflect, pinMembers, length_beq_zero, h]

theorem Marshal_infoDeleteJson (r : infoDeleteJson) :
    json.Marshal r.reflect = .ok (.obj [
      ("client_id", .str r.ClientID.runes), ("secret", .str r.Secret.runes),
      ("access_token", .str r.AccessToken.runes)]) := by
  simp [json.Marshal, json.encode, json.encodeFields, json.isEmptyValue, infoDeleteJson.reflect]

/-! ## The codec call each operation makes -/

section Calls

variable {σ postResponse mfaResponse deleteResponse : Type}

theorem InfoAddUser_eq (codec : Codec σ postResponse mfaResponse deleteResponse)
    (c : Client) (username password institutionType : GoString)
    (options : Option InfoOptions) (w : σ) :
    c.InfoAddUser codec username password institutionType options w =
      codec.postAndUnmarshal c "/info" (bytes.NewReader (.obj ([
        ("client_id", .str c.clientID.runes), ("secret", .str c.secret.runes),
        ("type", .str institutionType.runes), ("username", .str username.runes),
        ("password", .str password.runes)] ++ optionsMembers options))) w := by
  simp only [Client.InfoAddUser, Marshal_infoJson]

theorem infoStepSendMethod_eq (codec : Codec σ postResponse mfaResponse deleteResponse)
    (c : Client) (accessToken key value : GoString) (w : σ) :
    c.infoStepSendMethod codec accessToken key value w =
      codec.postAndUnmarshal c "/info/step" (bytes.NewReader (.obj [
        ("client_id", .str c.clientID.runes), ("secret", .str c.secret.runes),
        ("access_token", .str accessToken.runes),
        ("options", .obj [("send_method", .obj [(key.runes, .str value.runes)])])])) w := by
  simp only [Client.infoStepSendMethod, Marshal_infoStepSendMethodJson]

theorem InfoStep_eq (codec : Codec σ postResponse mfaResponse deleteResponse)
    (c : Client) (accessToken answer : GoString) (w : σ) :
    c.InfoStep codec accessToken answer w =
      codec.postAndUnmarshal c "/info/step" (bytes.NewReader (.obj [
        ("client_id", .str c.clientID.runes), ("secret", .str c.secret.runes),
        ("access_token", .str accessToken.runes), ("mfa", .str answer.runes)])) w := by
  simp only [Client.InfoStep, Marshal_infoStepJson]

theorem InfoGet_eq (codec : Codec σ postResponse mfaResponse deleteResponse)
    (c : Client) (accessToken : GoString) (w : σ) :
    c.InfoGet codec accessToken w =
      codec.postAndUnmarshal c "/info/get" (bytes.NewReader (.obj [
        ("client_id", .str c.clientID.runes), ("secret", .str c.secret.runes),
        ("access_token", .str accessToken.runes)])) w := by
  simp only [Client.InfoGet, Marshal_infoGetJson]

theorem InfoUpdate_eq (codec : Codec σ postResponse mfaResponse deleteResponse)
    (c : Client) (username password pin accessToken : GoString) (w : σ) :
    c.InfoUpdate codec username password pin accessToken w =
      codec.patchAndUnmarshal c "/info" (bytes.NewReader (.obj ([
        ("client_id", .str c.clientID.runes), ("secret", .str c.secret.runes),
        ("username", .str username.runes), ("password", .str password.runes)]
        ++ pinMembers pin ++ [("access_token", .str accessToken.runes)]))) w := by
  simp only [Client.InfoUpdate, Marshal_infoUpdateJson]

theorem InfoUpdateStep_eq (codec : Codec σ postResponse mfaResponse deleteResponse)
    (c : Client) (username password pin mfa accessToken : GoString) (w : σ) :
    c.InfoUpdateStep codec username password pin mfa accessToken w =
      codec.patchAndUnmarshal c "/info/step" (bytes.NewReader (.obj ([
        ("client_id", .str c.clientID.runes), ("secret", .str c.secret.runes),
        ("username", .str username.runes), ("password", .str password.runes)]
        ++ pinMembers pin
        ++ [("mfa", .str mfa.runes), ("access_token", .str accessToken.runes)]))) w := by
  simp only [Client.InfoUpdateStep, Marshal_infoUpdateStepJson]

theorem InfoDelete_eq (codec : Codec σ postResponse mfaResponse deleteResponse)
    (c : Client) (accessToken : GoString) (w : σ) :
    c.InfoDelete codec accessToken w =
      codec.deleteAndUnmarshal c "/info" (bytes.NewReader (.obj [
        ("client_id", .str c.clientID.runes), ("secret", .str c.secret.runes),
        ("access_token", .str accessToken.runes)])) w := by
  simp only [Client.InfoDelete, Marshal_infoDeleteJson]

end Calls

theorem callsOf_InfoAddUser (c : Client) (username password institutionType : GoString)
    (options : Option InfoOptions) :
    callsOf (fun k => c.InfoAddUser k username password institutionType options) =
      [⟨.POST, "/info", .obj ([
        ("client_id", .str c.clientID.runes), ("secret", .str c.secret.runes),
        ("type", .str institutionType.runes), ("username", .str username.runes),
        ("password", .str password.runes)] ++ optionsMembers options)⟩] := by
  simp [callsOf, InfoAddUser_eq, recorder, bytes.NewReader]

theorem callsOf_infoStepSendMethod (c : Client) (accessToken key value : GoString) :
    callsOf (fun k => c.infoStepSendMethod k accessToken key value) =
      [⟨.POST, "/info/step", .obj [
        ("client_id", .str c.clientID.runes), ("secret", .str c.secret.runes),
        ("access_token", .str accessToken.runes),
        ("options", .obj [("send_method", .obj [(key.runes, .str value.runes)])])]⟩] := by
  simp [callsOf, infoStepSendMethod_eq, recorder, bytes.NewReader]

theorem callsOf_InfoStep (c : Client) (accessToken answer : GoString) :
    callsOf (fun k => c.InfoStep k accessToken answer) =
      [⟨.POST, "/info/step", .obj [
        ("client_id", .str c.clientID.runes), ("secret", .str c.secret.runes),
        ("access_token", .str accessToken.runes), ("mfa", .str answer.runes)]⟩] := by
  simp [callsOf, InfoStep_eq, recorder, bytes.NewReader]

theorem callsOf_InfoGet (c : Client) (accessToken : GoString) :
    callsOf (fun k => c.InfoGet k accessToken) =
      [⟨.POST, "/info/get", .obj [
        ("client_id", .str c.clientID.runes), ("secret", .str c.secret.runes),
        ("access_token", .str accessToken.runes)]⟩] := by
  simp [callsOf, InfoGet_eq, recorder, bytes.NewReader]

theorem callsOf_InfoUpdate (c : Client) (username password pin accessToken : GoString) :
    callsOf (fun k => c.InfoUpdate k username password pin accessToken) =
      [⟨.PATCH, "/info", .obj ([
        ("client_id", .str c.clientID.runes), ("secret", .str c.secret.runes),
        ("username", .str username.runes), ("password", .str password.runes)]
        ++ pinMembers pin ++ [("access_token", .str accessToken.runes)])⟩] := by
  simp [callsOf, InfoUpdate_eq, recorder, bytes.NewReader]

theorem callsOf_InfoUpdateStep (c : Client) (username password pin mfa accessToken : GoString) :
    callsOf (fun k => c.InfoUpdateStep k username password pin mfa accessToken) =
      [⟨.PATCH, "/info/step", .obj ([
        ("client_id", .str c.clientID.runes), ("secret", .str c.secret.runes),
        ("username", .str username.runes), ("password", .str password.runes)]
        ++ pinMembers pin
        ++ [("mfa", .str mfa.runes), ("access_token", .str accessToken.runes)])⟩] := by
  simp [callsOf, InfoUpdateStep_eq, recorder, bytes.NewReader]

theorem callsOf_InfoDelete (c : Client) (accessToken : GoString) :
    callsOf (fun k => c.InfoDelete k accessToken) =
      [⟨.DELETE, "/info", .obj [
        ("client_id", .str c.clientID.runes), ("secret", .str c.secret.runes),
        ("access_token", .str accessToken.runes)]⟩] := by
  simp [callsOf, InfoDelete_eq, recorder, bytes.NewReader]

theorem bodyOf_InfoAddUser (c : Client) (username password institutionType : GoString)
    (options : Option InfoOptions) :
    bodyOf (fun k => c.InfoAddUser k username password institutionType options) =
      some (.obj ([
        ("client_id", .str c.clientID.runes), ("secret", .str c.secret.runes),
        ("type", .str institutionType.runes), ("username", .str username.runes),
        ("password", .str password.runes)] ++ optionsMembers options)) := by
  simp only [bodyOf, callsOf_InfoAddUser]

theorem bodyOf_infoStepSendMethod (c : Client) (accessToken key value : GoString) :
    bodyOf (fun k => c.infoStepSendMethod k accessToken key value) =
      some (.obj [
        ("client_id", .str c.clientID.runes), ("secret", .str c.secret.runes),
        ("access_token", .str accessToken.runes),
        ("options", .obj [("send_method", .obj [(key.runes, .str value.runes)])])]) := by
  simp only [bodyOf, callsOf_infoStepSendMethod]

theorem bodyOf_InfoStep (c : Client) (accessToken answer : GoString) :
    bodyOf (fun k => c.InfoStep k accessToken answer) =
      some (.obj [
        ("client_id", .str c.clientID.runes), ("secret", .str c.secret.runes),
        ("access_token", .str accessToken.runes), ("mfa", .str answer.runes)]) := by
  simp only [bodyOf, callsOf_InfoStep]

theorem bodyOf_InfoGet (c : Client) (accessToken : GoString) :
    bodyOf (fun k => c.InfoGet k accessToken) =
      some (.obj [
        ("client_id", .str c.clientID.runes), ("secret", .str c.secret.runes),
        ("access_token", .str accessToken.runes)]) := by
  simp only [bodyOf, callsOf_InfoGet]

theorem bodyOf_InfoUpdate (c : Client) (username password pin accessToken : GoString) :
    bodyOf (fun k => c.InfoUpdate k username password pin accessToken) =
      some (.obj ([
        ("client_id", .str c.clientID.runes), ("secret", .str c.secret.runes),
        ("username", .str username.runes), ("password", .str password.runes)]
        ++ pinMembers pin ++ [("access_token", .str accessToken.runes)])) := by
  simp only [bodyOf, callsOf_InfoUpdate]

theorem bodyOf_InfoUpdateStep (c : Client) (username password pin mfa accessToken : GoString) :
    bodyOf (fun k => c.InfoUpdateStep k username password pin mfa accessToken) =
      some (.obj ([
        ("client_id", .str c.clientID.runes), ("secret", .str c.secret.runes),
        ("username", .str username.runes), ("password", .str password.runes)]
        ++ pinMembers pin
        ++ [("mfa", .str mfa.runes), ("access_token", .str accessToken.runes)])) := by
  simp only [bodyOf, callsOf_InfoUpdateStep]

theorem bodyOf_InfoDelete (c : Client) (accessToken : GoString) :
    bodyOf (fun k => c.InfoDelete k accessToken) =
      some (.obj [
        ("client_id", .str c.clientID.runes), ("secret", .str c.secret.runes),
        ("access_token", .str accessToken.runes)]) := by
  simp only [bodyOf, callsOf_InfoDelete]

/-! ## Reading string values back -/

theorem runes_nil : GoString.runes [] = "" := rfl

theorem runes_FF : GoString.runes [0xFF] = "\uFFFD" := by decide

theorem runes_FD : GoString.runes [0xFD] = "\uFFFD" := by decide

theorem runes_FE : GoString.runes [0xFE] = "\uFFFD" := by decide

theorem ofText_replacement : GoString.ofText "\uFFFD" = [0xEF, 0xBF, 0xBD] := by decide

theorem runes_ne_empty (s : GoString) (h : s ≠ []) : (s.runes != "") = true := by
  simp [GoString.runes_eq_empty, h]

theorem getString?_cons_eq (k : String) (s : GoString) (ms : List (String × JsonValue))
    (h : utf8.ValidString s = true) :
    JsonValue.getString? (.obj ((k, .str s.runes) :: ms)) k = some s := by
  simp [JsonValue.getString?, JsonValue.get?, JsonValue.members, List.lookup,
    GoString.ofText_runes s h]

theorem getString?_cons_ne (k k1 : String) (v : JsonValue) (ms : List (String × JsonValue))
    (h : (k == k1) = false) :
    JsonValue.getString? (.obj ((k1, v) :: ms)) k = JsonValue.getString? (.obj ms) k := by
  simp [JsonValue.getString?, JsonValue.get?, JsonValue.members, List.lookup, h]

theorem Marshal_unsupported (kind : String) :
    json.Marshal (.struct [(⟨"f", false⟩, .unsupported kind)]) = .error (.EncodingError kind) := by
  simp [json.Marshal, json.encode, json.encodeFields]

/-! ## The claims -/

/-- C1, as stated, fails: the encoder writes U+FFFD for every byte that does
not start a valid UTF-8 sequence, so for the client with `clientID` "\xff" and
`secret` "\xfe" the body of `InfoGet` holds U+FFFD (bytes EF BF BD) under both
`client_id` and `secret`, not the credentials of the client. -/
theorem C1_invalid_utf8_credentials_are_rewritten :
    ∃ body, bodyOf (fun k => Client.InfoGet k ⟨[0xFF], [0xFE]⟩ (GoString.ofText "test_chase"))
        = some body ∧
      body.get? "client_id" = some (.str "\uFFFD") ∧
      body.get? "secret" = some (.str "\uFFFD") ∧
      body.getString? "client_id" = some [0xEF, 0xBF, 0xBD] ∧
      body.getString? "client_id" ≠ some [0xFF] ∧
      body.getString? "secret" = some [0xEF, 0xBF, 0xBD] ∧
      body.getString? "secret" ≠ some [0xFE] := by
  refine ⟨_, bodyOf_InfoGet .., ?_⟩
  simp [JsonValue.getString?, JsonValue.get?, JsonValue.members, List.lookup, runes_FF,
    runes_FE, ofText_replacement]

/-- C1, amended: for every client whose `clientID` and `secret` are valid
UTF-8 and every choice of arguments, the body each of the seven operations
hands to the codec has key `client_id` with value equal to the client's
`clientID` and key `secret` with value equal to the client's `secret`, so two
calls on the same client carry the same credential pair. -/
theorem C1_valid_credentials_in_every_body (c : Client)
    (username password institutionType pin mfa answer accessToken key value : GoString)
    (options : Option InfoOptions)
    (hid : utf8.ValidString c.clientID = true) (hsecret : utf8.ValidString c.secret = true) :
    (∃ body, bodyOf (fun k => c.InfoAddUser k username password institutionType options)
        = some body ∧
      body.getString? "client_id" = some c.clientID ∧
      body.getString? "secret" = some c.secret) ∧
    (∃ body, bodyOf (fun k => c.infoStepSendMethod k accessToken key value) = some body ∧
      body.getString? "client_id" = some c.clientID ∧
      body.getString? "secret" = some c.secret) ∧
    (∃ body, bodyOf (fun k => c.InfoStep k accessToken answer) = some body ∧
      body.getString? "client_id" = some c.clientID ∧
      body.getString? "secret" = some c.secret) ∧
    (∃ body, bodyOf (fun k => c.InfoGet k accessToken) = some body ∧
      body.getString? "client_id" = some c.clientID ∧
      body.getString? "secret" = some c.secret) ∧
    (∃ body, bodyOf (fun k => c.InfoUpdate k username password pin accessToken) = some body ∧
      body.getString? "client_id" = some c.clientID ∧
      body.getString? "secret" = some c.secret) ∧
    (∃ body, bodyOf (fun k => c.InfoUpdateStep k username password pin mfa accessToken)
        = some body ∧
      body.getString? "client_id" = some c.clientID ∧
      body.getString? "secret" = some c.secret) ∧
    (∃ body, bodyOf (fun k => c.InfoDelete k accessToken) = some body ∧
      body.getString? "client_id" = some c.clientID ∧
      body.getString? "secret" = some c.secret) := by
  refine ⟨⟨_, bodyOf_InfoAddUser .., ?_⟩, ⟨_, bodyOf_infoStepSendMethod .., ?_⟩,
    ⟨_, bodyOf_InfoStep .., ?_⟩, ⟨_, bodyOf_InfoGet .., ?_⟩,
    ⟨_, bodyOf_InfoUpdate .., ?_⟩, ⟨_, bodyOf_InfoUpdateStep .., ?_⟩,
    ⟨_, bodyOf_InfoDelete .., ?_⟩⟩ <;>
  simp [getString?_cons_eq, getString?_cons_ne, hid, hsecret]

/-- C1, amended, at the client with credentials "test_id" and "test_secret". -/
theorem C1_valid_credentials_witness :
    (utf8.ValidString (GoString.ofText "test_id") = true ∧ utf8.ValidString
        (GoString.ofText "test_secret") = true) ∧
    ((∃ body, bodyOf (fun k => Client.InfoAddUser k
        ⟨GoString.ofText "test_id", GoString.ofText "test_secret"⟩
            (GoString.ofText "user") (GoString.ofText "pass") (GoString.ofText "chase") none)
                = some body ∧
      body.getString? "client_id" = some (GoString.ofText "test_id") ∧
      body.getString? "secret" = some (GoString.ofText "test_secret")) ∧
    (∃ body, bodyOf (fun k => Client.infoStepSendMethod k
        ⟨GoString.ofText "test_id", GoString.ofText "test_secret"⟩
            (GoString.ofText "test_chase") (GoString.ofText "mask")
                (GoString.ofText "xxx-xxx-5309")) = some body ∧
      body.getString? "client_id" = some (GoString.ofText "test_id") ∧
      body.getString? "secret" = some (GoString.ofText "test_secret")) ∧
    (∃ body, bodyOf (fun k => Client.InfoStep k
        ⟨GoString.ofText "test_id", GoString.ofText "test_secret"⟩
            (GoString.ofText "test_chase") (GoString.ofText "tomato")) = some body ∧
      body.getString? "client_id" = some (GoString.ofText "test_id") ∧
      body.getString? "secret" = some (GoString.ofText "test_secret")) ∧
    (∃ body, bodyOf (fun k => Client.InfoGet k
        ⟨GoString.ofText "test_id", GoString.ofText "test_secret"⟩
            (GoString.ofText "test_chase")) = some body ∧
      body.getString? "client_id" = some (GoString.ofText "test_id") ∧
      body.getString? "secret" = some (GoString.ofText "test_secret")) ∧
    (∃ body, bodyOf (fun k => Client.InfoUpdate k
        ⟨GoString.ofText "test_id", GoString.ofText "test_secret"⟩
            (GoString.ofText "user") (GoString.ofText "pass")
                (GoString.ofText "1234") (GoString.ofText "test_chase")) = some body ∧
      body.getString? "client_id" = some (GoString.ofText "test_id") ∧
      body.getString? "secret" = some (GoString.ofText "test_secret")) ∧
    (∃ body, bodyOf (fun k => Client.InfoUpdateStep k
        ⟨GoString.ofText "test_id", GoString.ofText "test_secret"⟩
            (GoString.ofText "user") (GoString.ofText "pass")
                (GoString.ofText "1234") (GoString.ofText "tomato")
                    (GoString.ofText "test_chase")) = some body ∧
      body.getString? "client_id" = some (GoString.ofText "test_id") ∧
      body.getString? "secret" = some (GoString.ofText "test_secret")) ∧
    (∃ body, bodyOf (fun k => Client.InfoDelete k
        ⟨GoString.ofText "test_id", GoString.ofText "test_secret"⟩
            (GoString.ofText "test_chase")) = some body ∧
      body.getString? "client_id" = some (GoString.ofText "test_id") ∧
      body.getString? "secret" = some (GoString.ofText "test_secret"))) :=
  ⟨⟨by decide, by decide⟩,
   C1_valid_credentials_in_every_body
     ⟨GoString.ofText "test_id", GoString.ofText "test_secret"⟩
     (GoString.ofText "user") (GoString.ofText "pass") (GoString.ofText "chase")
         (GoString.ofText "1234") (GoString.ofText "tomato")
             (GoString.ofText "tomato") (GoString.ofText "test_chase")
                 (GoString.ofText "mask") (GoString.ofText "xxx-xxx-5309") none
     (by decide) (by decide)⟩

/-- C2: an unset optional field leaves no key in the body.  `InfoAddUser`
with nil options sends a body without the key `options`; `InfoUpdate` and
`InfoUpdateStep` with an empty pin send a body without the key `pin`.  With
non-nil options the key `options` is present, and with a non-empty pin the
key `pin` is present: the key `pin` is absent exactly when the pin is empty. -/
theorem C2_unset_optional_fields_omitted (c : Client)
    (username password institutionType pin mfa accessToken : GoString) (o : InfoOptions) :
    (∃ body, bodyOf (fun k => c.InfoAddUser k username password institutionType none)
        = some body ∧ body.get? "options" = none) ∧
    (∃ body, bodyOf (fun k => c.InfoAddUser k username password institutionType (some o))
        = some body ∧ body.hasKey "options" = true) ∧
    (∃ body, bodyOf (fun k => c.InfoUpdate k username password [] accessToken) = some body ∧
      body.get? "pin" = none) ∧
    (∃ body, bodyOf (fun k => c.InfoUpdateStep k username password [] mfa accessToken)
        = some body ∧ body.get? "pin" = none) ∧
    (∃ body, bodyOf (fun k => c.InfoUpdate k username password pin accessToken) = some body ∧
      (body.get? "pin" = none ↔ pin = []) ∧ (body.hasKey "pin" = true ↔ pin ≠ [])) ∧
    (∃ body, bodyOf (fun k => c.InfoUpdateStep k username password pin mfa accessToken)
        = some body ∧
      (body.get? "pin" = none ↔ pin = []) ∧ (body.hasKey "pin" = true ↔ pin ≠ [])) := by
  refine ⟨⟨_, bodyOf_InfoAddUser .., ?_⟩, ⟨_, bodyOf_InfoAddUser .., ?_⟩,
    ⟨_, bodyOf_InfoUpdate .., ?_⟩, ⟨_, bodyOf_InfoUpdateStep .., ?_⟩,
    ⟨_, bodyOf_InfoUpdate .., ?_⟩, ⟨_, bodyOf_InfoUpdateStep .., ?_⟩⟩
  · simp [JsonValue.get?, JsonValue.members, List.lookup, optionsMembers]
  · simp [JsonValue.hasKey, JsonValue.get?, JsonValue.members, List.lookup, optionsMembers]
  · simp [JsonValue.get?, JsonValue.members, List.lookup, pinMembers]
  · simp [JsonValue.get?, JsonValue.members, List.lookup, pinMembers]
  · by_cases h : pin = [] <;>
    simp [JsonValue.hasKey, JsonValue.get?, JsonValue.members, List.lookup, pinMembers, h]
  · by_cases h : pin = [] <;>
    simp [JsonValue.hasKey, JsonValue.get?, JsonValue.members, List.lookup, pinMembers, h]

/-- C3, as stated, fails: map keys and values go through the same string
encoder, so for the key "\xff" and the value "\xfe" the only entry of
`send_method` maps U+FFFD to U+FFFD, not the given key to the given value. -/
theorem C3_invalid_utf8_send_method_is_rewritten :
    ∃ body sm,
      bodyOf (fun k => Client.infoStepSendMethod k
        ⟨GoString.ofText "test_id", GoString.ofText "test_secret"⟩
        (GoString.ofText "test_chase") [0xFF] [0xFE]) = some body ∧
      body.getPath ["options", "send_method"] = some sm ∧
      sm.members = [("\uFFFD", .str "\uFFFD")] ∧
      GoString.ofText "\uFFFD" ≠ [0xFF] ∧ GoString.ofText "\uFFFD" ≠ [0xFE] := by
  refine ⟨_, .obj [("\uFFFD", .str "\uFFFD")], bodyOf_infoStepSendMethod .., ?_⟩
  simp [JsonValue.getPath, JsonValue.get?, JsonValue.members, List.lookup, runes_FF, runes_FE,
    ofText_replacement]

/-- C3, amended: for every access token and every key and value that are
valid UTF-8, the body of `infoStepSendMethod` has exactly the keys
`client_id`, `secret`, `access_token`, `options`; `options` is an object
whose only key is `send_method`, and `send_method` is an object whose only
entry maps the given key to the given value.  For key "mask" and value
"xxx-xxx-5309" the path `options.send_method.mask` holds "xxx-xxx-5309". -/
theorem C3_send_method_body (c : Client) (accessToken key value : GoString)
    (hkey : utf8.ValidString key = true) (hvalue : utf8.ValidString value = true) :
    (∃ body opts sm,
      bodyOf (fun k => c.infoStepSendMethod k accessToken key value) = some body ∧
      body.isObject = true ∧
      body.keys = ["client_id", "secret", "access_token", "options"] ∧
      body.get? "options" = some opts ∧
      opts.isObject = true ∧ opts.keys = ["send_method"] ∧
      opts.get? "send_method" = some sm ∧
      sm.isObject = true ∧
      ∃ keyText valueText,
        sm.members = [(keyText, .str valueText)] ∧
        GoString.ofText keyText = key ∧ GoString.ofText valueText = value ∧
        sm.getString? keyText = some value) ∧
    (∃ body,
      bodyOf (fun k => c.infoStepSendMethod k accessToken
        (GoString.ofText "mask") (GoString.ofText "xxx-xxx-5309")) = some body ∧
      body.getPath ["options", "send_method", "mask"] = some (.str "xxx-xxx-5309")) := by
  refine ⟨⟨_, .obj [("send_method", .obj [(key.runes, .str value.runes)])],
    .obj [(key.runes, .str value.runes)], bodyOf_infoStepSendMethod .., ?_⟩,
    ⟨_, bodyOf_infoStepSendMethod .., ?_⟩⟩
  · refine ⟨?_, ?_, ?_, ?_, ?_, ?_, ?_, key.runes, value.runes, ?_, ?_, ?_, ?_⟩ <;>
    simp [JsonValue.getString?, JsonValue.get?, JsonValue.members, JsonValue.keys,
      JsonValue.isObject, List.lookup, GoString.ofText_runes, hkey, hvalue]
  · simp [JsonValue.getPath, JsonValue.get?, JsonValue.members, List.lookup,
      GoString.runes_ofText]

/-- C3, amended, at the key "mask" and the value "xxx-xxx-5309". -/
theorem C3_send_method_body_witness :
    (utf8.ValidString (GoString.ofText "mask") = true ∧ utf8.ValidString
        (GoString.ofText "xxx-xxx-5309") = true) ∧
    ((∃ body opts sm,
      bodyOf (fun k => Client.infoStepSendMethod k
        ⟨GoString.ofText "test_id", GoString.ofText "test_secret"⟩
            (GoString.ofText "test_chase") (GoString.ofText "mask")
                (GoString.ofText "xxx-xxx-5309")) = some body ∧
      body.isObject = true ∧
      body.keys = ["client_id", "secret", "access_token", "options"] ∧
      body.get? "options" = some opts ∧
      opts.isObject = true ∧ opts.keys = ["send_method"] ∧
      opts.get? "send_method" = some sm ∧
      sm.isObject = true ∧
      ∃ keyText valueText,
        sm.members = [(keyText, .str valueText)] ∧
        GoString.ofText keyText =
            (GoString.ofText "mask") ∧ GoString.ofText valueText =
                (GoString.ofText "xxx-xxx-5309") ∧
        sm.getString? keyText = some (GoString.ofText "xxx-xxx-5309")) ∧
    (∃ body,
      bodyOf (fun k => Client.infoStepSendMethod k
        ⟨GoString.ofText "test_id", GoString.ofText "test_secret"⟩ (GoString.ofText "test_chase")
        (GoString.ofText "mask") (GoString.ofText "xxx-xxx-5309")) = some body ∧
      body.getPath ["options", "send_method", "mask"] = some (.str "xxx-xxx-5309"))) :=
  ⟨⟨by decide, by decide⟩,
   C3_send_method_body ⟨GoString.ofText "test_id", GoString.ofText "test_secret"⟩
     (GoString.ofText "test_chase") (GoString.ofText "mask") (GoString.ofText "xxx-xxx-5309")
     (by decide) (by decide)⟩

/-- C4: with the codec verb functions as parameters, each operation is one
call of the matching verb function on the fixed path, with the marshalled
request record as body, and returns that call's result and state unchanged:
`InfoAddUser` posts to "/info", `infoStepSendMethod` and `InfoStep` post to
"/info/step", `InfoGet` posts to "/info/get", `InfoUpdate` patches "/info",
`InfoUpdateStep` patches "/info/step", and `InfoDelete` calls
`deleteAndUnmarshal` on "/info", whose result is the confirmation pair. -/
theorem C4_operations_delegate_to_codec {σ postResponse mfaResponse deleteResponse : Type}
    (codec : Codec σ postResponse mfaResponse deleteResponse) (c : Client)
    (username password institutionType pin mfa answer accessToken key value : GoString)
    (options : Option InfoOptions) (w : σ) :
    (∃ jsonText,
      json.Marshal (infoJson.reflect
        ⟨c.clientID, c.secret, institutionType, username, password, options⟩) = .ok jsonText ∧
      c.InfoAddUser codec username password institutionType options w =
        codec.postAndUnmarshal c "/info" (bytes.NewReader jsonText) w) ∧
    (∃ jsonText,
      json.Marshal (infoStepSendMethodJson.reflect
        ⟨c.clientID, c.secret, accessToken, ⟨[(key, value)]⟩⟩) = .ok jsonText ∧
      c.infoStepSendMethod codec accessToken key value w =
        codec.postAndUnmarshal c "/info/step" (bytes.NewReader jsonText) w) ∧
    (∃ jsonText,
      json.Marshal (infoStepJson.reflect ⟨c.clientID, c.secret, accessToken, answer⟩)
        = .ok jsonText ∧
      c.InfoStep codec accessToken answer w =
        codec.postAndUnmarshal c "/info/step" (bytes.NewReader jsonText) w) ∧
    (∃ jsonText,
      json.Marshal (infoGetJson.reflect ⟨c.clientID, c.secret, accessToken⟩) = .ok jsonText ∧
      c.InfoGet codec accessToken w =
        codec.postAndUnmarshal c "/info/get" (bytes.NewReader jsonText) w) ∧
    (∃ jsonText,
      json.Marshal (infoUpdateJson.reflect
        ⟨c.clientID, c.secret, username, password, pin, accessToken⟩) = .ok jsonText ∧
      c.InfoUpdate codec username password pin accessToken w =
        codec.patchAndUnmarshal c "/info" (bytes.NewReader jsonText) w) ∧
    (∃ jsonText,
      json.Marshal (infoUpdateStepJson.reflect
        ⟨c.clientID, c.secret, username, password, pin, mfa, accessToken⟩) = .ok jsonText ∧
      c.InfoUpdateStep codec username password pin mfa accessToken w =
        codec.patchAndUnmarshal c "/info/step" (bytes.NewReader jsonText) w) ∧
    (∃ jsonText,
      json.Marshal (infoDeleteJson.reflect ⟨c.clientID, c.secret, accessToken⟩)
        = .ok jsonText ∧
      c.InfoDelete codec accessToken w =
        codec.deleteAndUnmarshal c "/info" (bytes.NewReader jsonText) w) :=
  ⟨⟨_, Marshal_infoJson _, InfoAddUser_eq ..⟩,
   ⟨_, Marshal_infoStepSendMethodJson .., infoStepSendMethod_eq ..⟩,
   ⟨_, Marshal_infoStepJson _, InfoStep_eq ..⟩,
   ⟨_, Marshal_infoGetJson _, InfoGet_eq ..⟩,
   ⟨_, Marshal_infoUpdateJson _, InfoUpdate_eq ..⟩,
   ⟨_, Marshal_infoUpdateStepJson _, InfoUpdateStep_eq ..⟩,
   ⟨_, Marshal_infoDeleteJson _, InfoDelete_eq ..⟩⟩

/-- C5, as stated, fails: for the username "\xff", the password "\xfe" and the
institution type "\xfd" the body of `InfoAddUser` holds U+FFFD (bytes EF BF
BD) under `username`, `password` and `type`, not the arguments. -/
theorem C5_invalid_utf8_add_user_is_rewritten :
    ∃ body, bodyOf (fun k => Client.InfoAddUser k
        ⟨GoString.ofText "test_id", GoString.ofText "test_secret"⟩ [0xFF] [0xFE] [0xFD] none)
        = some body ∧
      body.getString? "username" = some [0xEF, 0xBF, 0xBD] ∧
      body.getString? "username" ≠ some [0xFF] ∧
      body.getString? "password" = some [0xEF, 0xBF, 0xBD] ∧
      body.getString? "password" ≠ some [0xFE] ∧
      body.getString? "type" = some [0xEF, 0xBF, 0xBD] ∧
      body.getString? "type" ≠ some [0xFD] := by
  refine ⟨_, bodyOf_InfoAddUser .., ?_⟩
  simp [JsonValue.getString?, JsonValue.get?, JsonValue.members, List.lookup, runes_FF,
    runes_FE, runes_FD, ofText_replacement]

/-- C5, amended: for every username, password and institutionType that are
valid UTF-8 and every options, the body of `InfoAddUser` has `type` equal to
institutionType, `username` equal to username and `password` equal to
password; its keys are exactly `client_id`, `secret`, `type`, `username`,
`password` when options is nil, and those followed by `options` when it is
not; non-nil options with `List` true are encoded as the object with the
single member `list: true`, and with `List` false as an object without the
key `list`. -/
theorem C5_add_user_body (c : Client) (username password institutionType : GoString)
    (options : Option InfoOptions) (o : InfoOptions)
    (husername : utf8.ValidString username = true)
    (hpassword : utf8.ValidString password = true)
    (htype : utf8.ValidString institutionType = true) :
    (∃ body, bodyOf (fun k => c.InfoAddUser k username password institutionType options)
        = some body ∧
      body.getString? "type" = some institutionType ∧
      body.getString? "username" = some username ∧
      body.getString? "password" = some password) ∧
    (∃ body, bodyOf (fun k => c.InfoAddUser k username password institutionType none)
        = some body ∧
      body.isObject = true ∧
      body.keys = ["client_id", "secret", "type", "username", "password"]) ∧
    (∃ body, bodyOf (fun k => c.InfoAddUser k username password institutionType (some o))
        = some body ∧
      body.isObject = true ∧
      body.keys = ["client_id", "secret", "type", "username", "password", "options"]) ∧
    (∃ body, bodyOf (fun k => c.InfoAddUser k username password institutionType (some ⟨true⟩))
        = some body ∧
      body.get? "options" = some (.obj [("list", .bool true)])) ∧
    (∃ body opts,
      bodyOf (fun k => c.InfoAddUser k username password institutionType (some ⟨false⟩))
        = some body ∧
      body.get? "options" = some opts ∧ opts.isObject = true ∧ opts.get? "list" = none) := by
  refine ⟨⟨_, bodyOf_InfoAddUser .., ?_⟩, ⟨_, bodyOf_InfoAddUser .., ?_⟩,
    ⟨_, bodyOf_InfoAddUser .., ?_⟩, ⟨_, bodyOf_InfoAddUser .., ?_⟩,
    ⟨_, .obj [], bodyOf_InfoAddUser .., ?_⟩⟩
  · simp [getString?_cons_eq, getString?_cons_ne, husername, hpassword, htype]
  · simp [JsonValue.keys, JsonValue.members, JsonValue.isObject, optionsMembers]
  · simp [JsonValue.keys, JsonValue.members, JsonValue.isObject, optionsMembers]
  · simp [JsonValue.get?, JsonValue.members, List.lookup, optionsMembers]
  · simp [JsonValue.get?, JsonValue.members, JsonValue.isObject, List.lookup, optionsMembers]

/-- C5, amended, at the username "user", the password "pass" and the
institution type "chase". -/
theorem C5_add_user_body_witness :
    (utf8.ValidString (GoString.ofText "user") = true ∧ utf8.ValidString
        (GoString.ofText "pass") = true ∧ utf8.ValidString (GoString.ofText "chase") = true) ∧
    ((∃ body, bodyOf (fun k => Client.InfoAddUser k
        ⟨GoString.ofText "test_id", GoString.ofText "test_secret"⟩
            (GoString.ofText "user") (GoString.ofText "pass") (GoString.ofText "chase") none)
        = some body ∧
      body.getString? "type" = some (GoString.ofText "chase") ∧
      body.getString? "username" = some (GoString.ofText "user") ∧
      body.getString? "password" = some (GoString.ofText "pass")) ∧
    (∃ body, bodyOf (fun k => Client.InfoAddUser k
        ⟨GoString.ofText "test_id", GoString.ofText "test_secret"⟩
            (GoString.ofText "user") (GoString.ofText "pass") (GoString.ofText "chase") none)
        = some body ∧
      body.isObject = true ∧
      body.keys = ["client_id", "secret", "type", "username", "password"]) ∧
    (∃ body, bodyOf (fun k => Client.InfoAddUser k
        ⟨GoString.ofText "test_id", GoString.ofText "test_secret"⟩
            (GoString.ofText "user") (GoString.ofText "pass")
                (GoString.ofText "chase") (some ⟨true⟩))
        = some body ∧
      body.isObject = true ∧
      body.keys = ["client_id", "secret", "type", "username", "password", "options"]) ∧
    (∃ body, bodyOf (fun k => Client.InfoAddUser k
        ⟨GoString.ofText "test_id", GoString.ofText "test_secret"⟩
            (GoString.ofText "user") (GoString.ofText "pass")
                (GoString.ofText "chase") (some ⟨true⟩))
        = some body ∧
      body.get? "options" = some (.obj [("list", .bool true)])) ∧
    (∃ body opts,
      bodyOf (fun k => Client.InfoAddUser k
        ⟨GoString.ofText "test_id", GoString.ofText "test_secret"⟩
            (GoString.ofText "user") (GoString.ofText "pass")
                (GoString.ofText "chase") (some ⟨false⟩))
        = some body ∧
      body.get? "options" = some opts ∧ opts.isObject = true ∧ opts.get? "list" = none)) :=
  ⟨⟨by decide, by decide, by decide⟩,
   C5_add_user_body ⟨GoString.ofText "test_id", GoString.ofText "test_secret"⟩
     (GoString.ofText "user") (GoString.ofText "pass") (GoString.ofText "chase") none ⟨true⟩
     (by decide) (by decide) (by decide)⟩

/-- C6, as stated, fails: for the username "\xff" and the password "\xfe" the
body of `InfoUpdateStep` holds U+FFFD (bytes EF BF BD) under both `username`
and `password`, so neither value is the argument of the same name. -/
theorem C6_invalid_utf8_update_step_is_rewritten :
    ∃ body, bodyOf (fun k => Client.InfoUpdateStep k
        ⟨GoString.ofText "test_id", GoString.ofText "test_secret"⟩ [0xFF] [0xFE]
        (GoString.ofText "1234") (GoString.ofText "tomato") (GoString.ofText "test_chase"))
        = some body ∧
      body.getString? "username" = some [0xEF, 0xBF, 0xBD] ∧
      body.getString? "username" ≠ some [0xFF] ∧
      body.getString? "password" = some [0xEF, 0xBF, 0xBD] ∧
      body.getString? "password" ≠ some [0xFE] := by
  refine ⟨_, bodyOf_InfoUpdateStep .., ?_⟩
  simp [JsonValue.getString?, JsonValue.get?, JsonValue.members, List.lookup, runes_FF,
    runes_FE, ofText_replacement]

/-- C6, amended: for every username, password, pin, mfa and accessToken that
are valid UTF-8, the body of `InfoUpdateStep` has `username`, `password`,
`mfa` and `access_token` equal to the arguments of the same name; `pin` is
absent when the pin argument is empty and equal to it otherwise; the keys
are exactly `client_id`, `secret`, `username`, `password`, then `pin` iff the
pin is non-empty, then `mfa`, `access_token`; the key `mfa` is present even
for an empty mfa argument. -/
theorem C6_update_step_body (c : Client) (username password pin mfa accessToken : GoString)
    (husername : utf8.ValidString username = true)
    (hpassword : utf8.ValidString password = true)
    (hpin : utf8.ValidString pin = true)
    (hmfa : utf8.ValidString mfa = true)
    (htoken : utf8.ValidString accessToken = true) :
    (∃ body, bodyOf (fun k => c.InfoUpdateStep k username password pin mfa accessToken)
        = some body ∧
      body.isObject = true ∧
      body.getString? "username" = some username ∧
      body.getString? "password" = some password ∧
      body.getString? "mfa" = some mfa ∧
      body.getString? "access_token" = some accessToken ∧
      body.getString? "pin" = (if pin = [] then none else some pin) ∧
      body.keys = ["client_id", "secret", "username", "password"]
        ++ (if pin = [] then [] else ["pin"]) ++ ["mfa", "access_token"]) ∧
    (∃ body, bodyOf (fun k => c.InfoUpdateStep k username password pin [] accessToken)
        = some body ∧
      body.get? "mfa" = some (.str "")) := by
  refine ⟨⟨_, bodyOf_InfoUpdateStep .., ?_⟩, ⟨_, bodyOf_InfoUpdateStep .., ?_⟩⟩
  · by_cases h : pin = []
    · simp [JsonValue.getString?, JsonValue.get?, JsonValue.members, JsonValue.keys,
        JsonValue.isObject, List.lookup, pinMembers, h, GoString.ofText_runes, husername,
        hpassword, hmfa, htoken]
    · simp [JsonValue.getString?, JsonValue.get?, JsonValue.members, JsonValue.keys,
        JsonValue.isObject, List.lookup, pinMembers, h, GoString.ofText_runes, husername,
        hpassword, hpin, hmfa, htoken]
  · by_cases h : pin = [] <;>
    simp [JsonValue.get?, JsonValue.members, List.lookup, pinMembers, h, runes_nil]

/-- C6, amended, at ASCII arguments with the pin "1234". -/
theorem C6_update_step_body_witness :
    (utf8.ValidString (GoString.ofText "user") = true ∧
      utf8.ValidString (GoString.ofText "pass") = true ∧
      utf8.ValidString (GoString.ofText "1234") = true ∧
      utf8.ValidString (GoString.ofText "tomato") = true ∧
      utf8.ValidString (GoString.ofText "test_chase") = true) ∧
    ((∃ body, bodyOf (fun k => Client.InfoUpdateStep k
        ⟨GoString.ofText "test_id", GoString.ofText "test_secret"⟩
            (GoString.ofText "user") (GoString.ofText "pass")
                (GoString.ofText "1234") (GoString.ofText "tomato") (GoString.ofText "test_chase"))
        = some body ∧
      body.isObject = true ∧
      body.getString? "username" = some (GoString.ofText "user") ∧
      body.getString? "password" = some (GoString.ofText "pass") ∧
      body.getString? "mfa" = some (GoString.ofText "tomato") ∧
      body.getString? "access_token" = some (GoString.ofText "test_chase") ∧
      body.getString? "pin" = (if (GoString.ofText "1234") = [] then none else some
          (GoString.ofText "1234")) ∧
      body.keys = ["client_id", "secret", "username", "password"]
        ++ (if (GoString.ofText "1234") = [] then [] else ["pin"]) ++ ["mfa", "access_token"]) ∧
    (∃ body, bodyOf (fun k => Client.InfoUpdateStep k
        ⟨GoString.ofText "test_id", GoString.ofText "test_secret"⟩
            (GoString.ofText "user") (GoString.ofText "pass")
                (GoString.ofText "1234") [] (GoString.ofText "test_chase"))
        = some body ∧
      body.get? "mfa" = some (.str ""))) :=
  ⟨⟨by decide, by decide, by decide, by decide, by decide⟩,
   C6_update_step_body ⟨GoString.ofText "test_id", GoString.ofText "test_secret"⟩
     (GoString.ofText "user") (GoString.ofText "pass") (GoString.ofText "1234")
         (GoString.ofText "tomato") (GoString.ofText "test_chase")
     (by decide) (by decide) (by decide) (by decide) (by decide)⟩

/-- C7, as stated, fails: the access tokens "tok\xed\xa0\x80" and
"tok\xff\xff\xff" differ, yet `InfoGet` hands the codec the same body for
both, with `access_token` holding "tok" followed by three U+FFFD, so the
value is not the accessToken argument. -/
theorem C7_invalid_utf8_access_tokens_collide :
    ([0x74, 0x6F, 0x6B, 0xED, 0xA0, 0x80] : GoString) ≠ [0x74, 0x6F, 0x6B, 0xFF, 0xFF, 0xFF] ∧
    bodyOf (fun k => Client.InfoGet k
        ⟨GoString.ofText "test_id", GoString.ofText "test_secret"⟩
        [0x74, 0x6F, 0x6B, 0xED, 0xA0, 0x80])
      = bodyOf (fun k => Client.InfoGet k
        ⟨GoString.ofText "test_id", GoString.ofText "test_secret"⟩
        [0x74, 0x6F, 0x6B, 0xFF, 0xFF, 0xFF]) ∧
    ∃ body, bodyOf (fun k => Client.InfoGet k
        ⟨GoString.ofText "test_id", GoString.ofText "test_secret"⟩
        [0x74, 0x6F, 0x6B, 0xED, 0xA0, 0x80]) = some body ∧
      body.get? "access_token" = some (.str "tok\uFFFD\uFFFD\uFFFD") ∧
      body.getString? "access_token" ≠ some [0x74, 0x6F, 0x6B, 0xED, 0xA0, 0x80] := by
  have e1 : GoString.runes [0x74, 0x6F, 0x6B, 0xED, 0xA0, 0x80] = "tok\uFFFD\uFFFD\uFFFD" := by
    decide
  have e2 : GoString.runes [0x74, 0x6F, 0x6B, 0xFF, 0xFF, 0xFF] = "tok\uFFFD\uFFFD\uFFFD" := by
    decide
  have e3 : GoString.ofText "tok\uFFFD\uFFFD\uFFFD"
      = [0x74, 0x6F, 0x6B, 0xEF, 0xBF, 0xBD, 0xEF, 0xBF, 0xBD, 0xEF, 0xBF, 0xBD] := by
    decide
  refine ⟨by decide, ?_, _, bodyOf_InfoGet .., ?_⟩
  · rw [bodyOf_InfoGet, bodyOf_InfoGet, e1, e2]
  · simp [JsonValue.getString?, JsonValue.get?, JsonValue.members, List.lookup, e1, e3]

/-- C7, amended: for every access token that is valid UTF-8, the body of each
of `infoStepSendMethod`, `InfoStep`, `InfoGet`, `InfoUpdate`,
`InfoUpdateStep` and `InfoDelete` has the key `access_token` with the
accessToken argument as value, and for every input the body of `InfoAddUser`
has no key `access_token`. -/
theorem C7_access_token_except_add_user (c : Client)
    (username password institutionType pin mfa answer accessToken key value : GoString)
    (options : Option InfoOptions)
    (htoken : utf8.ValidString accessToken = true) :
    (∃ body, bodyOf (fun k => c.infoStepSendMethod k accessToken key value) = some body ∧
      body.getString? "access_token" = some accessToken) ∧
    (∃ body, bodyOf (fun k => c.InfoStep k accessToken answer) = some body ∧
      body.getString? "access_token" = some accessToken) ∧
    (∃ body, bodyOf (fun k => c.InfoGet k accessToken) = some body ∧
      body.getString? "access_token" = some accessToken) ∧
    (∃ body, bodyOf (fun k => c.InfoUpdate k username password pin accessToken) = some body ∧
      body.getString? "access_token" = some accessToken) ∧
    (∃ body, bodyOf (fun k => c.InfoUpdateStep k username password pin mfa accessToken)
        = some body ∧
      body.getString? "access_token" = some accessToken) ∧
    (∃ body, bodyOf (fun k => c.InfoDelete k accessToken) = some body ∧
      body.getString? "access_token" = some accessToken) ∧
    (∃ body, bodyOf (fun k => c.InfoAddUser k username password institutionType options)
        = some body ∧
      body.get? "access_token" = none) := by
  refine ⟨⟨_, bodyOf_infoStepSendMethod .., ?_⟩, ⟨_, bodyOf_InfoStep .., ?_⟩,
    ⟨_, bodyOf_InfoGet .., ?_⟩, ⟨_, bodyOf_InfoUpdate .., ?_⟩,
    ⟨_, bodyOf_InfoUpdateStep .., ?_⟩, ⟨_, bodyOf_InfoDelete .., ?_⟩,
    ⟨_, bodyOf_InfoAddUser .., ?_⟩⟩
  · simp [getString?_cons_eq, getString?_cons_ne, htoken]
  · simp [getString?_cons_eq, getString?_cons_ne, htoken]
  · simp [getString?_cons_eq, getString?_cons_ne, htoken]
  · by_cases h : pin = [] <;>
    simp [JsonValue.getString?, JsonValue.get?, JsonValue.members, List.lookup, pinMembers, h,
      GoString.ofText_runes, htoken]
  · by_cases h : pin = [] <;>
    simp [JsonValue.getString?, JsonValue.get?, JsonValue.members, List.lookup, pinMembers, h,
      GoString.ofText_runes, htoken]
  · simp [getString?_cons_eq, getString?_cons_ne, htoken]
  · cases options <;> simp [JsonValue.get?, JsonValue.members, List.lookup, optionsMembers]

/-- C7, amended, at the access token "test_chase". -/
theorem C7_access_token_witness :
    utf8.ValidString (GoString.ofText "test_chase") = true ∧
    ((∃ body, bodyOf (fun k => Client.infoStepSendMethod k
        ⟨GoString.ofText "test_id", GoString.ofText "test_secret"⟩
            (GoString.ofText "test_chase") (GoString.ofText "mask")
                (GoString.ofText "xxx-xxx-5309")) = some body ∧
      body.getString? "access_token" = some (GoString.ofText "test_chase")) ∧
    (∃ body, bodyOf (fun k => Client.InfoStep k
        ⟨GoString.ofText "test_id", GoString.ofText "test_secret"⟩
            (GoString.ofText "test_chase") (GoString.ofText "tomato")) = some body ∧
      body.getString? "access_token" = some (GoString.ofText "test_chase")) ∧
    (∃ body, bodyOf (fun k => Client.InfoGet k
        ⟨GoString.ofText "test_id", GoString.ofText "test_secret"⟩
            (GoString.ofText "test_chase")) = some body ∧
      body.getString? "access_token" = some (GoString.ofText "test_chase")) ∧
    (∃ body, bodyOf (fun k => Client.InfoUpdate k
        ⟨GoString.ofText "test_id", GoString.ofText "test_secret"⟩
            (GoString.ofText "user") (GoString.ofText "pass")
                (GoString.ofText "1234") (GoString.ofText "test_chase")) = some body ∧
      body.getString? "access_token" = some (GoString.ofText "test_chase")) ∧
    (∃ body, bodyOf (fun k => Client.InfoUpdateStep k
        ⟨GoString.ofText "test_id", GoString.ofText "test_secret"⟩
            (GoString.ofText "user") (GoString.ofText "pass")
                (GoString.ofText "1234") (GoString.ofText "tomato")
                    (GoString.ofText "test_chase")) = some body ∧
      body.getString? "access_token" = some (GoString.ofText "test_chase")) ∧
    (∃ body, bodyOf (fun k => Client.InfoDelete k
        ⟨GoString.ofText "test_id", GoString.ofText "test_secret"⟩
            (GoString.ofText "test_chase")) = some body ∧
      body.getString? "access_token" = some (GoString.ofText "test_chase")) ∧
    (∃ body, bodyOf (fun k => Client.InfoAddUser k
        ⟨GoString.ofText "test_id", GoString.ofText "test_secret"⟩
            (GoString.ofText "user") (GoString.ofText "pass") (GoString.ofText "chase") none)
        = some body ∧
      body.get? "access_token" = none)) :=
  ⟨by decide,
   C7_access_token_except_add_user ⟨GoString.ofText "test_id", GoString.ofText "test_secret"⟩
     (GoString.ofText "user") (GoString.ofText "pass") (GoString.ofText "chase")
         (GoString.ofText "1234") (GoString.ofText "tomato")
             (GoString.ofText "tomato") (GoString.ofText "test_chase")
                 (GoString.ofText "mask") (GoString.ofText "xxx-xxx-5309") none
     (by decide)⟩

/-- C8, as stated, fails: the operations copy the credential pair of the
client without checking it, so a client whose `clientID` and `secret` are
empty makes `InfoAddUser` and `InfoDelete` hand the codec a body whose
`client_id` and `secret` are the empty string. -/
theorem C8_empty_credentials_are_sent :
    (∃ body, bodyOf (fun k => Client.InfoAddUser k ⟨[], []⟩
        (GoString.ofText "user") (GoString.ofText "pass") (GoString.ofText "chase") none)
        = some body ∧
      body.get? "client_id" = some (.str "") ∧ body.get? "secret" = some (.str "") ∧
      body.hasNonEmpty "client_id" = false ∧ body.hasNonEmpty "secret" = false) ∧
    (∃ body, bodyOf (fun k => Client.InfoDelete k ⟨[], []⟩ (GoString.ofText "test_chase"))
        = some body ∧
      body.get? "client_id" = some (.str "") ∧ body.get? "secret" = some (.str "") ∧
      body.hasNonEmpty "client_id" = false ∧ body.hasNonEmpty "secret" = false) := by
  refine ⟨⟨_, bodyOf_InfoAddUser .., ?_⟩, ⟨_, bodyOf_InfoDelete .., ?_⟩⟩ <;>
  simp [JsonValue.hasNonEmpty, JsonValue.isNonEmptyString, JsonValue.get?, JsonValue.members,
    List.lookup, optionsMembers, runes_nil]

/-- C8, amended: for every client whose `clientID` and `secret` are
non-empty, the body each of the seven operations hands to the codec has a
non-empty `client_id` and a non-empty `secret`. -/
theorem C8_credentials_non_empty_when_client_has_them (c : Client)
    (hid : c.clientID ≠ []) (hsecret : c.secret ≠ [])
    (username password institutionType pin mfa answer accessToken key value : GoString)
    (options : Option InfoOptions) :
    (∃ body, bodyOf (fun k => c.InfoAddUser k username password institutionType options)
        = some body ∧
      body.hasNonEmpty "client_id" = true ∧ body.hasNonEmpty "secret" = true) ∧
    (∃ body, bodyOf (fun k => c.infoStepSendMethod k accessToken key value) = some body ∧
      body.hasNonEmpty "client_id" = true ∧ body.hasNonEmpty "secret" = true) ∧
    (∃ body, bodyOf (fun k => c.InfoStep k accessToken answer) = some body ∧
      body.hasNonEmpty "client_id" = true ∧ body.hasNonEmpty "secret" = true) ∧
    (∃ body, bodyOf (fun k => c.InfoGet k accessToken) = some body ∧
      body.hasNonEmpty "client_id" = true ∧ body.hasNonEmpty "secret" = true) ∧
    (∃ body, bodyOf (fun k => c.InfoUpdate k username password pin accessToken) = some body ∧
      body.hasNonEmpty "client_id" = true ∧ body.hasNonEmpty "secret" = true) ∧
    (∃ body, bodyOf (fun k => c.InfoUpdateStep k username password pin mfa accessToken)
        = some body ∧
      body.hasNonEmpty "client_id" = true ∧ body.hasNonEmpty "secret" = true) ∧
    (∃ body, bodyOf (fun k => c.InfoDelete k accessToken) = some body ∧
      body.hasNonEmpty "client_id" = true ∧ body.hasNonEmpty "secret" = true) := by
  refine ⟨⟨_, bodyOf_InfoAddUser .., ?_⟩, ⟨_, bodyOf_infoStepSendMethod .., ?_⟩,
    ⟨_, bodyOf_InfoStep .., ?_⟩, ⟨_, bodyOf_InfoGet .., ?_⟩,
    ⟨_, bodyOf_InfoUpdate .., ?_⟩, ⟨_, bodyOf_InfoUpdateStep .., ?_⟩,
    ⟨_, bodyOf_InfoDelete .., ?_⟩⟩ <;>
  simp [JsonValue.hasNonEmpty, JsonValue.isNonEmptyString, JsonValue.get?, JsonValue.members,
    List.lookup, runes_ne_empty, hid, hsecret]

/-- C8, amended, at the client with credentials "test_id" and "test_secret". -/
theorem C8_credentials_non_empty_witness :
    (GoString.ofText "test_id" ≠ [] ∧ GoString.ofText "test_secret" ≠ []) ∧
    ((∃ body, bodyOf (fun k => Client.InfoAddUser k
        ⟨GoString.ofText "test_id", GoString.ofText "test_secret"⟩
            (GoString.ofText "user") (GoString.ofText "pass") (GoString.ofText "chase") none)
                = some body ∧
      body.hasNonEmpty "client_id" = true ∧ body.hasNonEmpty "secret" = true) ∧
    (∃ body, bodyOf (fun k => Client.infoStepSendMethod k
        ⟨GoString.ofText "test_id", GoString.ofText "test_secret"⟩
            (GoString.ofText "test_chase") (GoString.ofText "mask")
                (GoString.ofText "xxx-xxx-5309")) = some body ∧
      body.hasNonEmpty "client_id" = true ∧ body.hasNonEmpty "secret" = true) ∧
    (∃ body, bodyOf (fun k => Client.InfoStep k
        ⟨GoString.ofText "test_id", GoString.ofText "test_secret"⟩
            (GoString.ofText "test_chase") (GoString.ofText "tomato")) = some body ∧
      body.hasNonEmpty "client_id" = true ∧ body.hasNonEmpty "secret" = true) ∧
    (∃ body, bodyOf (fun k => Client.InfoGet k
        ⟨GoString.ofText "test_id", GoString.ofText "test_secret"⟩
            (GoString.ofText "test_chase")) = some body ∧
      body.hasNonEmpty "client_id" = true ∧ body.hasNonEmpty "secret" = true) ∧
    (∃ body, bodyOf (fun k => Client.InfoUpdate k
        ⟨GoString.ofText "test_id", GoString.ofText "test_secret"⟩
            (GoString.ofText "user") (GoString.ofText "pass")
                (GoString.ofText "1234") (GoString.ofText "test_chase")) = some body ∧
      body.hasNonEmpty "client_id" = true ∧ body.hasNonEmpty "secret" = true) ∧
    (∃ body, bodyOf (fun k => Client.InfoUpdateStep k
        ⟨GoString.ofText "test_id", GoString.ofText "test_secret"⟩
            (GoString.ofText "user") (GoString.ofText "pass")
                (GoString.ofText "1234") (GoString.ofText "tomato")
                    (GoString.ofText "test_chase")) = some body ∧
      body.hasNonEmpty "client_id" = true ∧ body.hasNonEmpty "secret" = true) ∧
    (∃ body, bodyOf (fun k => Client.InfoDelete k
        ⟨GoString.ofText "test_id", GoString.ofText "test_secret"⟩
            (GoString.ofText "test_chase")) = some body ∧
      body.hasNonEmpty "client_id" = true ∧ body.hasNonEmpty "secret" = true)) :=
  ⟨⟨by decide, by decide⟩,
   C8_credentials_non_empty_when_client_has_them
     ⟨GoString.ofText "test_id", GoString.ofText "test_secret"⟩
     (by decide) (by decide)
     (GoString.ofText "user") (GoString.ofText "pass") (GoString.ofText "chase")
         (GoString.ofText "1234") (GoString.ofText "tomato")
             (GoString.ofText "tomato") (GoString.ofText "test_chase")
                 (GoString.ofText "mask") (GoString.ofText "xxx-xxx-5309") none⟩

/-- C10: for every client, all string arguments and every options value, the
JSON encoding step of each of the seven operations succeeds, so the early
return with an encoding error is never taken, and the operation invokes the
codec exactly once: its call log is the single call of the matching verb on
the fixed path with the encoded document as body. -/
theorem C10_encoding_never_fails (c : Client)
    (username password institutionType pin mfa answer accessToken key value : GoString)
    (options : Option InfoOptions) :
    (∃ jsonText,
      json.Marshal (infoJson.reflect
        ⟨c.clientID, c.secret, institutionType, username, password, options⟩) = .ok jsonText ∧
      callsOf (fun k => c.InfoAddUser k username password institutionType options)
        = [⟨.POST, "/info", jsonText⟩]) ∧
    (∃ jsonText,
      json.Marshal (infoStepSendMethodJson.reflect
        ⟨c.clientID, c.secret, accessToken, ⟨[(key, value)]⟩⟩) = .ok jsonText ∧
      callsOf (fun k => c.infoStepSendMethod k accessToken key value)
        = [⟨.POST, "/info/step", jsonText⟩]) ∧
    (∃ jsonText,
      json.Marshal (infoStepJson.reflect ⟨c.clientID, c.secret, accessToken, answer⟩)
        = .ok jsonText ∧
      callsOf (fun k => c.InfoStep k accessToken answer)
        = [⟨.POST, "/info/step", jsonText⟩]) ∧
    (∃ jsonText,
      json.Marshal (infoGetJson.reflect ⟨c.clientID, c.secret, accessToken⟩) = .ok jsonText ∧
      callsOf (fun k => c.InfoGet k accessToken) = [⟨.POST, "/info/get", jsonText⟩]) ∧
    (∃ jsonText,
      json.Marshal (infoUpdateJson.reflect
        ⟨c.clientID, c.secret, username, password, pin, accessToken⟩) = .ok jsonText ∧
      callsOf (fun k => c.InfoUpdate k username password pin accessToken)
        = [⟨.PATCH, "/info", jsonText⟩]) ∧
    (∃ jsonText,
      json.Marshal (infoUpdateStepJson.reflect
        ⟨c.clientID, c.secret, username, password, pin, mfa, accessToken⟩) = .ok jsonText ∧
      callsOf (fun k => c.InfoUpdateStep k username password pin mfa accessToken)
        = [⟨.PATCH, "/info/step", jsonText⟩]) ∧
    (∃ jsonText,
      json.Marshal (infoDeleteJson.reflect ⟨c.clientID, c.secret, accessToken⟩)
        = .ok jsonText ∧
      callsOf (fun k => c.InfoDelete k accessToken) = [⟨.DELETE, "/info", jsonText⟩]) :=
  ⟨⟨_, Marshal_infoJson _, callsOf_InfoAddUser ..⟩,
   ⟨_, Marshal_infoStepSendMethodJson .., callsOf_infoStepSendMethod ..⟩,
   ⟨_, Marshal_infoStepJson _, callsOf_InfoStep ..⟩,
   ⟨_, Marshal_infoGetJson _, callsOf_InfoGet ..⟩,
   ⟨_, Marshal_infoUpdateJson _, callsOf_InfoUpdate ..⟩,
   ⟨_, Marshal_infoUpdateStepJson _, callsOf_InfoUpdateStep ..⟩,
   ⟨_, Marshal_infoDeleteJson _, callsOf_InfoDelete ..⟩⟩

end plaid
